import Mathlib

/-! Verification of mycat6: block-size selector, aligned allocator, copy loop.

A shallow embedding of `src/mycat6.c`.

* `long` / `ssize_t` / `blksize_t` values are `Int`; `size_t` / `uintptr_t` values are `Nat`
  reduced modulo `2 ^ 64` (LP64, `sizeof(void *) = 8`).
* The operating system is an explicit environment `Env`: the value returned by every system
  call is an input of the model.  `read` and `write` are driven by finite scripts of results.
* Everything observable that the program does is appended to a trace of `Event`s carried by
  the process state `Proc`, together with the bytes accepted by standard output.
* `io_blocksize` of `src/mycat4.c` is embedded as well, for comparison with the selector of
  `mycat6.c`.
-/

namespace Mycat6

/-! ## Machine arithmetic -/

/-- Number of values of `size_t` and `uintptr_t`. -/
def WORD : Nat := 2 ^ 64

/-- The value of `sizeof(void *)`. -/
def PTR_SIZE : Nat := 8

/-- Smallest `long`. -/
def LONG_MIN : Int := -(2 ^ 63)

/-- Largest `long`. -/
def LONG_MAX : Int := 2 ^ 63 - 1

def EXIT_SUCCESS : Int := 0

def EXIT_FAILURE : Int := 1

/-- The `errno` value of an interrupted system call. -/
def EINTR : Nat := 4

/-- Conversion of a `long` to `size_t` (reduction modulo `2 ^ 64`). -/
def to_size_t (x : Int) : Nat := (x % (WORD : Int)).toNat

/-- Unsigned addition `a + b`. -/
def uadd (a b : Nat) : Nat := (a + b) % WORD

/-- Unsigned subtraction `a - b`. -/
def usub (a b : Nat) : Nat := (a % WORD + (WORD - b % WORD)) % WORD

/-- Bitwise complement `~a` of a 64-bit word. -/
def unot (a : Nat) : Nat := WORD - 1 - a % WORD

/-! ## Observable events and process state -/

abbrev Byte := Fin 256

/-- Diagnostics written to `stderr` (by `perror` or `fprintf`), one constructor per call site. -/
inductive Diag
  | usage
  | open_failed
  | fadvise_warning
  | sysconf_failed
  | invalid_page_size
  | malloc_failed
  | write_failed
  | read_failed
  | close_failed
  deriving DecidableEq, Repr

/-- Observable actions of the process, in program order. -/
inductive Event
  /-- a diagnostic line on `stderr` -/
  | stderr (d : Diag)
  /-- the call `malloc(size)` and the address it returned (`0` is `NULL`) -/
  | malloc (size ret : Nat)
  /-- a `void *` store of `val` at address `addr` -/
  | store (addr val : Nat)
  /-- a `void *` load from address `addr` -/
  | load (addr : Nat)
  /-- the call `free(p)`; `none` is an indeterminate pointer read from a cell never written -/
  | free (p : Option Nat)
  /-- entry into `align_free(ptr)` -/
  | align_free (ptr : Nat)
  /-- the call `read(fd_in, buffer, count)` and its return value -/
  | read (count : Nat) (ret : Int)
  /-- the call `write(STDOUT_FILENO, buffer + off, count)`, its return value, and `errno`
  when the return value is `-1` (`0` otherwise) -/
  | write (off count : Nat) (ret : Int) (errno : Nat)
  /-- the call `close(fd_in)` and its return value -/
  | close (ret : Int)
  deriving DecidableEq, Repr

/-- Process state: pointer cells written so far (latest first), the trace, and the bytes
accepted by standard output. -/
structure Proc where
  cells : List (Nat × Nat)
  trace : List Event
  out : List Byte
  deriving DecidableEq, Repr

/-- Append one event to the trace. -/
def Proc.emit (p : Proc) (ev : Event) : Proc :=
  { p with trace := p.trace ++ [ev] }

/-- Store the pointer `val` at address `addr`. -/
def Proc.store (p : Proc) (addr val : Nat) : Proc :=
  { p with cells := (addr, val) :: p.cells, trace := p.trace ++ [Event.store addr val] }

/-- Load the pointer held at address `addr`. -/
def Proc.load (p : Proc) (addr : Nat) : Option Nat × Proc :=
  (p.cells.lookup addr, { p with trace := p.trace ++ [Event.load addr] })

/-- Standard output accepts the bytes `bs`. -/
def Proc.put (p : Proc) (bs : List Byte) : Proc :=
  { p with out := p.out ++ bs }

/-- Result of one `write` call as decided by the environment: `ok k` means the output can
take `k` bytes at this call, so `write(fd, buf, count)` returns `min k count`;
`fail errno` means the call returns `-1` with that `errno`. -/
inductive WriteRes
  | ok (k : Nat)
  | fail (errno : Nat)
  deriving DecidableEq, Repr

/-- Result of one `read` call as decided by the environment: `data c` means the bytes `c`
are available at this call, so `read(fd, buf, count)` delivers the first `count` of them;
`fail errno` means the call returns `-1` with that `errno`. -/
inductive ReadRes
  | data (c : List Byte)
  | fail (errno : Nat)
  deriving DecidableEq, Repr

/-- Results of the system calls of one run. -/
structure Env where
  argc : Int
  /-- return value of `open` -/
  open_ret : Int
  /-- return value of `posix_fadvise` -/
  fadvise_ret : Int
  /-- return value of `sysconf(_SC_PAGESIZE)` -/
  sysconf_ret : Int
  /-- `none` when `fstat` fails, `some b` when it succeeds with `st_blksize = b` -/
  fstat_ret : Option Int
  /-- address returned by `malloc`, `0` for `NULL` -/
  malloc_ret : Nat
  /-- results of the successive `read` calls; after the script `read` returns `0` -/
  reads : List ReadRes
  /-- results of the successive `write` calls; after the script `write` accepts all bytes -/
  writes : List WriteRes
  /-- return value of `close` -/
  close_ret : Int
  deriving DecidableEq, Repr

/-- Where control is after a loop: at the statement following it, or the process has
called `exit`. -/
inductive Flow (α : Type)
  | cont (a : α) (p : Proc)
  | exit (status : Int) (p : Proc)

/-- Process state carried by a `Flow`. -/
def Flow.proc {α : Type} : Flow α → Proc
  | Flow.cont _ p => p
  | Flow.exit _ p => p

/-! ## Block-size selector (`mycat6.c` lines 11-41) -/

def OPTIMAL_BUFFER_SIZE : Int := 256 * 1024

/-- `determine_io_blocksize_mycat6`, as a function of the results of `sysconf` and `fstat`. -/
def determine_io_blocksize_mycat6 (sysconf_ret : Int) (fstat_ret : Option Int) : Int :=
  let page_size := sysconf_ret
  let _page_size := if page_size = -1 then 4096 else page_size
  let fs_blk_size : Int :=
    match fstat_ret with
    | some st_blksize =>
      if st_blksize ≤ 0 ∨ Int.land st_blksize (st_blksize - 1) ≠ 0 then 0 else st_blksize
    | none => 0
  let chosen_buffer_size := OPTIMAL_BUFFER_SIZE
  if fs_blk_size > 0 ∧ fs_blk_size > chosen_buffer_size then fs_blk_size
  else chosen_buffer_size

/-! ## Aligned allocator (`mycat6.c` lines 44-74) -/

/-- The value of `alignment` after lines 46-53 of `align_alloc`. -/
def align_alloc_alignment (alignment : Nat) (sysconf_ret : Int) : Nat :=
  let alignment := if alignment = 0 then 1 else alignment
  if (alignment &&& usub alignment 1) ≠ 0 ∧ alignment ≠ 1 then
    let alignment := to_size_t sysconf_ret
    if alignment ≤ 0 ∨ (alignment &&& usub alignment 1) ≠ 0 then 4096 else alignment
  else alignment

/-- `align_alloc(size, alignment)`; `malloc_ret` is the address returned by `malloc`.
Returns the aligned pointer (`0` for `NULL`) and the new process state. -/
def align_alloc (size alignment : Nat) (sysconf_ret : Int) (malloc_ret : Nat) (p : Proc) :
    Nat × Proc :=
  let alignment := align_alloc_alignment alignment sysconf_ret
  let total_size := uadd (usub (uadd size alignment) 1) PTR_SIZE
  let original_ptr := malloc_ret
  let p := p.emit (Event.malloc total_size original_ptr)
  if original_ptr = 0 then
    (0, p.emit (Event.stderr Diag.malloc_failed))
  else
    let aligned_addr_val :=
      usub (uadd (uadd original_ptr PTR_SIZE) alignment) 1 &&& unot (usub alignment 1)
    let aligned_ptr := aligned_addr_val
    (aligned_ptr, p.store (usub aligned_ptr PTR_SIZE) original_ptr)

/-- `align_free(ptr)`. -/
def align_free (ptr : Nat) (p : Proc) : Proc :=
  let p := p.emit (Event.align_free ptr)
  if ptr = 0 then p
  else
    let r := p.load (usub ptr PTR_SIZE)
    let original_ptr := r.1
    r.2.emit (Event.free original_ptr)

/-! ## Copy loop and `main` (`mycat6.c` lines 76-165) -/

/-- Return value of `write(fd, buf, count)` for the environment's result `r`. -/
def sys_write (r : WriteRes) (count : Nat) : Int :=
  match r with
  | WriteRes.ok k => ((min k count : Nat) : Int)
  | WriteRes.fail _ => -1

/-- The inner loop, lines 131-144: `data` is the content of the first `bytes_read` bytes of
the buffer, the first numeric argument is `bytes_written_total`.  Returns the unused part of
the write script. -/
def write_loop (buffer : Nat) (data : List Byte) (close_ret : Int) :
    Nat → List WriteRes → Proc → Flow (List WriteRes)
  | bytes_written_total, [], p =>
    if bytes_written_total < data.length then
      let count := data.length - bytes_written_total
      Flow.cont []
        ((p.emit (Event.write bytes_written_total count (count : Int) 0)).put
          ((data.drop bytes_written_total).take count))
    else Flow.cont [] p
  | bytes_written_total, r :: ws, p =>
    if bytes_written_total < data.length then
      let count := data.length - bytes_written_total
      let bytes_written_one := sys_write r count
      match r with
      | WriteRes.fail errno =>
        let p := p.emit (Event.write bytes_written_total count bytes_written_one errno)
        if errno = EINTR then write_loop buffer data close_ret bytes_written_total ws p
        else
          let p := p.emit (Event.stderr Diag.write_failed)
          let p := align_free buffer p
          let p := p.emit (Event.close close_ret)
          Flow.exit EXIT_FAILURE p
      | WriteRes.ok _ =>
        let p := p.emit (Event.write bytes_written_total count bytes_written_one 0)
        let p := p.put ((data.drop bytes_written_total).take bytes_written_one.toNat)
        write_loop buffer data close_ret (bytes_written_total + bytes_written_one.toNat) ws p
    else Flow.cont (r :: ws) p

/-- The outer loop, lines 128-145.  Returns the final value of `bytes_read`. -/
def read_loop (buffer : Nat) (buffer_size : Int) (close_ret : Int) :
    List ReadRes → List WriteRes → Proc → Flow Int
  | [], _, p => Flow.cont 0 (p.emit (Event.read (to_size_t buffer_size) 0))
  | ReadRes.fail _ :: _, _, p => Flow.cont (-1) (p.emit (Event.read (to_size_t buffer_size) (-1)))
  | ReadRes.data c :: rs, ws, p =>
    let data := c.take (to_size_t buffer_size)
    let bytes_read : Int := (data.length : Int)
    let p := p.emit (Event.read (to_size_t buffer_size) bytes_read)
    if bytes_read > 0 then
      match write_loop buffer data close_ret 0 ws p with
      | Flow.exit status p => Flow.exit status p
      | Flow.cont ws p => read_loop buffer buffer_size close_ret rs ws p
    else Flow.cont bytes_read p

/-- Lines 105-115 of `main`: the page size used as alignment, with its diagnostics. -/
def main_alignment (sysconf_ret : Int) : Int × List Event :=
  let system_page_size := sysconf_ret
  let r : Int × List Event :=
    if system_page_size = -1 then (4096, [Event.stderr Diag.sysconf_failed])
    else (system_page_size, [])
  let system_page_size := r.1
  if system_page_size ≤ 0 ∨ Int.land system_page_size (system_page_size - 1) ≠ 0 then
    (4096, r.2 ++ [Event.stderr Diag.invalid_page_size])
  else (system_page_size, r.2)

/-- Lines 94-117 of `main`: from the `posix_fadvise` call to the return of `align_alloc`.
Returns `buffer`, `buffer_size` and the process state. -/
def main_setup (e : Env) : Nat × Int × Proc :=
  let p : Proc := ⟨[], [], []⟩
  let p := if e.fadvise_ret ≠ 0 then p.emit (Event.stderr Diag.fadvise_warning) else p
  let buffer_size := determine_io_blocksize_mycat6 e.sysconf_ret e.fstat_ret
  let a := main_alignment e.sysconf_ret
  let system_page_size := a.1
  let p : Proc := { p with trace := p.trace ++ a.2 }
  let r := align_alloc (to_size_t buffer_size) (to_size_t system_page_size) e.sysconf_ret
    e.malloc_ret p
  (r.1, buffer_size, r.2)

/-- Lines 147-165 of `main`: what follows the copy loop. -/
def main_finish (buffer : Nat) (bytes_read : Int) (close_ret : Int) (p : Proc) : Int × Proc :=
  let p := if bytes_read = -1 then p.emit (Event.stderr Diag.read_failed) else p
  let p := align_free buffer p
  let p := p.emit (Event.close close_ret)
  if close_ret = -1 then
    let p := p.emit (Event.stderr Diag.close_failed)
    if bytes_read ≠ -1 then (EXIT_FAILURE, p)
    else (if bytes_read = -1 then EXIT_FAILURE else EXIT_SUCCESS, p)
  else (if bytes_read = -1 then EXIT_FAILURE else EXIT_SUCCESS, p)

/-- The program `main`: exit status and final process state. -/
def main (e : Env) : Int × Proc :=
  if e.argc ≠ 2 then (EXIT_FAILURE, Proc.emit ⟨[], [], []⟩ (Event.stderr Diag.usage))
  else if e.open_ret = -1 then
    (EXIT_FAILURE, Proc.emit ⟨[], [], []⟩ (Event.stderr Diag.open_failed))
  else
    let s := main_setup e
    let buffer := s.1
    let buffer_size := s.2.1
    let p := s.2.2
    if buffer = 0 then (EXIT_FAILURE, p.emit (Event.close e.close_ret))
    else
      match read_loop buffer buffer_size e.close_ret e.reads e.writes p with
      | Flow.exit status p => (status, p)
      | Flow.cont bytes_read p => main_finish buffer bytes_read e.close_ret p

/-! ## Vocabulary for statements about traces -/

/-- A `write` call that returned `-1` with an `errno` other than `EINTR`. -/
def Event.fatal_write : Event → Bool
  | Event.write _ _ ret errno => decide (ret = -1) && decide (errno ≠ EINTR)
  | _ => false

/-- A `read` call that returned `-1`. -/
def Event.failed_read : Event → Bool
  | Event.read _ ret => decide (ret = -1)
  | _ => false

/-- A `read` or `write` call. -/
def Event.is_rw : Event → Bool
  | Event.read _ _ => true
  | Event.write _ _ _ _ => true
  | _ => false

/-- An entry into `align_free`. -/
def Event.is_align_free : Event → Bool
  | Event.align_free _ => true
  | _ => false

/-- A `read` that did not fail, or a `write` that succeeded or was interrupted. -/
def Event.benign : Event → Bool
  | Event.read _ ret => decide (ret ≠ -1)
  | Event.write _ _ ret errno => decide (ret ≠ -1) || decide (errno = EINTR)
  | _ => false

/-- The events of one call `align_free(ptr)` in a state with the given pointer cells. -/
def align_free_events (ptr : Nat) (cells : List (Nat × Nat)) : List Event :=
  Event.align_free ptr ::
    (if ptr = 0 then []
     else [Event.load (usub ptr PTR_SIZE), Event.free (cells.lookup (usub ptr PTR_SIZE))])

/-- The events of lines 138-141: what the program does after a fatal `write` failure. -/
def write_exit_events (buffer : Nat) (close_ret : Int) (cells : List (Nat × Nat)) :
    List Event :=
  Event.stderr Diag.write_failed :: (align_free_events buffer cells ++ [Event.close close_ret])

/-- The events of lines 147-163: what the program does after the copy loop has ended. -/
def finish_events (buffer : Nat) (bytes_read : Int) (close_ret : Int)
    (cells : List (Nat × Nat)) : List Event :=
  (if bytes_read = -1 then [Event.stderr Diag.read_failed] else []) ++
    align_free_events buffer cells ++ [Event.close close_ret] ++
    (if close_ret = -1 then [Event.stderr Diag.close_failed] else [])

/-! ## Page size seen by the selector, and the selector of `mycat4.c` -/

/-- The value of `page_size` after lines 18-20 of `determine_io_blocksize_mycat6`: the
result of `sysconf(_SC_PAGESIZE)`, or 4096 when the query fails. -/
def selector_page_size (sysconf_ret : Int) : Int :=
  let page_size := sysconf_ret
  if page_size = -1 then 4096 else page_size

/-- The function `io_blocksize` of `mycat4.c` (lines 12-55), as a function of the results of
`sysconf` and `fstat` (`none` when `fstat` returns `-1`); its diagnostics are left out. -/
def io_blocksize (sysconf_ret : Int) (fstat_ret : Option Int) : Int :=
  let page_size := sysconf_ret
  if page_size = -1 then 4096
  else
    match fstat_ret with
    | none => page_size
    | some st_blksize =>
      let fs_blk_size := st_blksize
      if fs_blk_size ≤ 0 then page_size
      else
        let chosen_buffer_size := page_size
        if fs_blk_size > page_size then fs_blk_size else chosen_buffer_size

/-! ## Arithmetic lemmas -/

theorem pow2_of_land_pred (n : Nat) (hn : 0 < n) (h : n &&& (n - 1) = 0) : ∃ k : Nat, n = 2 ^ k := by
  refine ⟨Nat.log 2 n, ?_⟩
  have h1 : 2 ^ Nat.log 2 n ≤ n := Nat.pow_log_le_self 2 hn.ne'
  have h2 : n < 2 ^ (Nat.log 2 n + 1) := Nat.lt_pow_succ_log_self (by norm_num) n
  by_contra hne
  have h3 : 2 ^ Nat.log 2 n ≤ n - 1 := by omega
  have h4 : n - 1 < 2 ^ (Nat.log 2 n + 1) := by omega
  have key : ∀ x : Nat, 2 ^ Nat.log 2 n ≤ x → x < 2 ^ (Nat.log 2 n + 1) →
      x.testBit (Nat.log 2 n) = true := by
    intro x hx1 hx2
    rw [Nat.testBit_to_div_mod]
    have : x / 2 ^ Nat.log 2 n = 1 := by
      apply Nat.div_eq_of_lt_le
      · simpa using hx1
      · rw [pow_succ] at hx2; omega
    simp [this]
  have h5 : (n &&& (n - 1)).testBit (Nat.log 2 n) = true := by
    rw [Nat.testBit_and, key n h1 h2, key (n - 1) h3 h4]; rfl
  rw [h] at h5
  simp at h5

theorem land_pred_pow2 (k : Nat) : 2 ^ k &&& (2 ^ k - 1) = 0 := by
  rw [Nat.and_pow_two_sub_one_eq_mod]; simp

theorem land_mask (x k : Nat) (hx : x < 2 ^ 64) (hk : k ≤ 64) :
    x &&& (2 ^ 64 - 1 - (2 ^ k - 1)) = x / 2 ^ k * 2 ^ k := by
  apply Nat.eq_of_testBit_eq
  intro i
  have hlt : 2 ^ k - 1 < 2 ^ 64 := by
    have : 2 ^ k ≤ 2 ^ 64 := Nat.pow_le_pow_right (by norm_num) hk
    have : 0 < 2 ^ k := Nat.pos_pow_of_pos _ (by norm_num)
    omega
  have e1 : 2 ^ 64 - 1 - (2 ^ k - 1) = 2 ^ 64 - ((2 ^ k - 1) + 1) := by omega
  rw [Nat.testBit_and, e1, Nat.testBit_two_pow_sub_succ hlt, Nat.testBit_two_pow_sub_one,
    Nat.mul_comm, Nat.testBit_mul_pow_two, ← Nat.shiftRight_eq_div_pow, Nat.testBit_shiftRight]
  by_cases h1 : i < k
  · simp [h1, Nat.not_le.mpr h1]
  · have h2 : k ≤ i := Nat.le_of_not_lt h1
    have h4 : k + (i - k) = i := by omega
    by_cases h3 : i < 64
    · simp [h1, h2, h3, h4]
    · have : x.testBit i = false := by
        apply Nat.testBit_lt_two_pow
        exact lt_of_lt_of_le hx (Nat.pow_le_pow_right (by norm_num) (Nat.le_of_not_lt h3))
      simp [h1, h2, h3, h4, this]

theorem int_land_pred (n : Nat) (hn : 0 < n) :
    Int.land (n : Int) ((n : Int) - 1) = ((n &&& (n - 1) : Nat) : Int) := by
  have : ((n : Int) - 1) = ((n - 1 : Nat) : Int) := by omega
  rw [this]; rfl

theorem int_land_pred_eq_zero_iff (b : Int) (hb : 0 < b) :
    Int.land b (b - 1) = 0 ↔ ∃ k : Nat, b = 2 ^ k := by
  obtain ⟨n, rfl⟩ := Int.eq_ofNat_of_zero_le hb.le
  have hn : 0 < n := by exact_mod_cast hb
  rw [int_land_pred n hn]
  constructor
  · intro h
    obtain ⟨k, hk⟩ := pow2_of_land_pred n hn (by exact_mod_cast h)
    exact ⟨k, by exact_mod_cast hk⟩
  · rintro ⟨k, hk⟩
    have : n = 2 ^ k := by exact_mod_cast hk
    subst this
    exact_mod_cast land_pred_pow2 k

theorem two_pow_lt_word (k : Nat) (hk : k < 64) : 2 ^ k < WORD ∧ 0 < 2 ^ k := by
  constructor
  · exact Nat.pow_lt_pow_right (by norm_num) hk
  · exact Nat.pos_pow_of_pos _ (by norm_num)

theorem usub_one (a : Nat) (h1 : 0 < a) (h2 : a < WORD) : usub a 1 = a - 1 := by
  unfold usub WORD at *
  omega

theorem align_alloc_alignment_pow2 (k : Nat) (hk : k < 64) (sysconf_ret : Int) :
    align_alloc_alignment (2 ^ k) sysconf_ret = 2 ^ k := by
  obtain ⟨h1, h2⟩ := two_pow_lt_word k hk
  unfold align_alloc_alignment
  simp only [Nat.ne_of_gt h2, if_false]
  rw [usub_one _ h2 h1, land_pred_pow2]
  simp

theorem align_alloc_ptr (size k : Nat) (hk : k < 64) (sysconf_ret : Int) (raw : Nat) (p : Proc)
    (hraw : raw ≠ 0) :
    (align_alloc size (2 ^ k) sysconf_ret raw p).1
      = usub (uadd (uadd raw PTR_SIZE) (2 ^ k)) 1 / 2 ^ k * 2 ^ k := by
  obtain ⟨h1, h2⟩ := two_pow_lt_word k hk
  unfold align_alloc
  simp only [align_alloc_alignment_pow2 k hk, hraw, if_false]
  rw [usub_one _ h2 h1]
  have hx : usub (uadd (uadd raw PTR_SIZE) (2 ^ k)) 1 < 2 ^ 64 := by
    unfold usub; exact Nat.mod_lt _ (by norm_num [WORD])
  have hm : unot (2 ^ k - 1) = 2 ^ 64 - 1 - (2 ^ k - 1) := by
    unfold unot; rw [Nat.mod_eq_of_lt (by omega)]; rfl
  rw [hm, land_mask _ k hx hk.le]

/-! ## The aligned allocator -/

/-- C2: for every address `raw` returned by `malloc`, every `size` and every power-of-two
`alignment = 2 ^ k` representable in `size_t`, the address returned by `align_alloc` is a
multiple of `alignment`; and when the address arithmetic does not wrap, that address is
`(raw + sizeof(void *) + alignment - 1) & ~(alignment - 1)`. -/
theorem align_alloc_aligned (size k : Nat) (sysconf_ret : Int) (raw : Nat) (p : Proc)
    (hk : k < 64) :
    (align_alloc size (2 ^ k) sysconf_ret raw p).1 % 2 ^ k = 0 ∧
    (raw ≠ 0 → raw + PTR_SIZE + 2 ^ k - 1 < WORD →
      (align_alloc size (2 ^ k) sysconf_ret raw p).1
        = (raw + PTR_SIZE + 2 ^ k - 1) &&& (WORD - 1 - (2 ^ k - 1))) := by
  obtain ⟨h1, h2⟩ := two_pow_lt_word k hk
  constructor
  · by_cases hraw : raw = 0
    · subst hraw
      simp [align_alloc]
    · rw [align_alloc_ptr size k hk sysconf_ret raw p hraw]
      exact Nat.mul_mod_left _ _
  · intro hraw hfit
    rw [align_alloc_ptr size k hk sysconf_ret raw p hraw]
    have hx : usub (uadd (uadd raw PTR_SIZE) (2 ^ k)) 1 = raw + PTR_SIZE + 2 ^ k - 1 := by
      unfold usub uadd WORD PTR_SIZE at *
      omega
    rw [hx]
    exact (land_mask _ k hfit hk.le).symm

/-- Witness for C2: alignment 4096, size 4095. -/
theorem align_alloc_aligned_witness :
    (align_alloc 4095 (2 ^ 12) 4096 140737488355344 ⟨[], [], []⟩).1 % 2 ^ 12 = 0 ∧
    (align_alloc 4095 (2 ^ 12) 4096 140737488355344 ⟨[], [], []⟩).1
        = (140737488355344 + PTR_SIZE + 2 ^ 12 - 1) &&& (WORD - 1 - (2 ^ 12 - 1)) :=
  ⟨(align_alloc_aligned 4095 12 4096 140737488355344 ⟨[], [], []⟩ (by decide)).1,
   (align_alloc_aligned 4095 12 4096 140737488355344 ⟨[], [], []⟩ (by decide)).2
     (by decide) (by decide)⟩

/-- C3: for a power-of-two alignment `a = 2 ^ k` and a raw block `[raw, raw + total_size)`
with `total_size = size + a - 1 + sizeof(void *)` that lies in the address space,
`align_alloc` asks `malloc` for `total_size` bytes, stores `raw` in the slot
`[q - sizeof(void *), q)` just below the returned address `q`, and
`raw + sizeof(void *) ≤ q` and `q + size ≤ raw + total_size`: the slot and the usable
region `[q, q + size)` lie inside the raw block and the slot ends where the region starts. -/
theorem align_alloc_region (size k : Nat) (sysconf_ret : Int) (raw : Nat) (p : Proc)
    (hk : k < 64) (hraw : raw ≠ 0) (hfit : raw + (size + 2 ^ k - 1 + PTR_SIZE) < WORD) :
    (align_alloc size (2 ^ k) sysconf_ret raw p).2.trace
      = p.trace ++ [Event.malloc (size + 2 ^ k - 1 + PTR_SIZE) raw,
          Event.store ((align_alloc size (2 ^ k) sysconf_ret raw p).1 - PTR_SIZE) raw] ∧
    raw + PTR_SIZE ≤ (align_alloc size (2 ^ k) sysconf_ret raw p).1 ∧
    (align_alloc size (2 ^ k) sysconf_ret raw p).1 + size
      ≤ raw + (size + 2 ^ k - 1 + PTR_SIZE) ∧
    raw ≤ (align_alloc size (2 ^ k) sysconf_ret raw p).1 - PTR_SIZE ∧
    ((align_alloc size (2 ^ k) sysconf_ret raw p).1 - PTR_SIZE) + PTR_SIZE
      = (align_alloc size (2 ^ k) sysconf_ret raw p).1 := by
  obtain ⟨h1, h2⟩ := two_pow_lt_word k hk
  have hq := align_alloc_ptr size k hk sysconf_ret raw p hraw
  have hx : usub (uadd (uadd raw PTR_SIZE) (2 ^ k)) 1 = raw + PTR_SIZE + 2 ^ k - 1 := by
    unfold usub uadd WORD PTR_SIZE at *
    omega
  rw [hx] at hq
  have hle : (raw + PTR_SIZE + 2 ^ k - 1) / 2 ^ k * 2 ^ k ≤ raw + PTR_SIZE + 2 ^ k - 1 :=
    Nat.div_mul_le_self _ _
  have hge : raw + PTR_SIZE ≤ (raw + PTR_SIZE + 2 ^ k - 1) / 2 ^ k * 2 ^ k := by
    have hmod := Nat.mod_lt (raw + PTR_SIZE + 2 ^ k - 1) h2
    have hdm := Nat.div_add_mod (raw + PTR_SIZE + 2 ^ k - 1) (2 ^ k)
    rw [Nat.mul_comm] at hdm
    omega
  rw [← hq] at hle hge
  have hq8 : usub (align_alloc size (2 ^ k) sysconf_ret raw p).1 PTR_SIZE
      = (align_alloc size (2 ^ k) sysconf_ret raw p).1 - PTR_SIZE := by
    unfold usub WORD PTR_SIZE at *
    omega
  refine ⟨?_, hge, ?_, ?_, ?_⟩
  · have ht : uadd (usub (uadd size (2 ^ k)) 1) PTR_SIZE = size + 2 ^ k - 1 + PTR_SIZE := by
      unfold usub uadd WORD PTR_SIZE at *
      omega
    rw [← hq8]
    unfold align_alloc
    simp only [align_alloc_alignment_pow2 k hk, hraw, if_false, ht]
    simp [Proc.store, Proc.emit]
  · unfold PTR_SIZE at *; omega
  · unfold PTR_SIZE at *; omega
  · unfold PTR_SIZE at *; omega

/-- Witness for C3: alignment 65536, size 1000000. -/
theorem align_alloc_region_witness :
    (align_alloc 1000000 (2 ^ 16) 4096 140737488355344 ⟨[], [], []⟩).2.trace
      = [] ++ [Event.malloc (1000000 + 2 ^ 16 - 1 + PTR_SIZE) 140737488355344,
          Event.store ((align_alloc 1000000 (2 ^ 16) 4096 140737488355344 ⟨[], [], []⟩).1
            - PTR_SIZE) 140737488355344] ∧
    140737488355344 + PTR_SIZE ≤ (align_alloc 1000000 (2 ^ 16) 4096 140737488355344 ⟨[], [], []⟩).1 ∧
    (align_alloc 1000000 (2 ^ 16) 4096 140737488355344 ⟨[], [], []⟩).1 + 1000000
      ≤ 140737488355344 + (1000000 + 2 ^ 16 - 1 + PTR_SIZE) ∧
    140737488355344 ≤ (align_alloc 1000000 (2 ^ 16) 4096 140737488355344 ⟨[], [], []⟩).1 - PTR_SIZE ∧
    ((align_alloc 1000000 (2 ^ 16) 4096 140737488355344 ⟨[], [], []⟩).1 - PTR_SIZE) + PTR_SIZE
      = (align_alloc 1000000 (2 ^ 16) 4096 140737488355344 ⟨[], [], []⟩).1 :=
  align_alloc_region 1000000 16 4096 140737488355344 ⟨[], [], []⟩ (by decide) (by decide)
    (by decide)

/-- C4: when `align_alloc(size, alignment)` obtained `raw` from `malloc` and returned a
non-null `q`, it stored `raw` in the cell at `q - sizeof(void *)`, and `align_free(q)` loads
that cell and calls `free(raw)` and nothing else; `align_free(NULL)` loads nothing and frees
nothing. -/
theorem align_free_undoes_align_alloc (size alignment : Nat) (sysconf_ret : Int) (raw : Nat)
    (p : Proc) (hq : (align_alloc size alignment sysconf_ret raw p).1 ≠ 0) :
    (∃ total_size, (align_alloc size alignment sysconf_ret raw p).2.trace
      = p.trace ++ [Event.malloc total_size raw,
          Event.store (usub (align_alloc size alignment sysconf_ret raw p).1 PTR_SIZE) raw]) ∧
    (align_free (align_alloc size alignment sysconf_ret raw p).1
        (align_alloc size alignment sysconf_ret raw p).2).trace
      = (align_alloc size alignment sysconf_ret raw p).2.trace ++
        [Event.align_free (align_alloc size alignment sysconf_ret raw p).1,
         Event.load (usub (align_alloc size alignment sysconf_ret raw p).1 PTR_SIZE),
         Event.free (some raw)] ∧
    (∀ p0 : Proc, align_free 0 p0 = p0.emit (Event.align_free 0)) := by
  have hraw : raw ≠ 0 := by
    intro h0
    apply hq
    simp [align_alloc, h0]
  refine ⟨?_, ?_, ?_⟩
  · refine ⟨uadd (usub (uadd size (align_alloc_alignment alignment sysconf_ret)) 1) PTR_SIZE, ?_⟩
    simp [align_alloc, hraw, Proc.store, Proc.emit]
  · have hq2 : ¬ (usub (uadd (uadd raw PTR_SIZE) (align_alloc_alignment alignment sysconf_ret)) 1
        &&& unot (usub (align_alloc_alignment alignment sysconf_ret) 1)) = 0 := by
      simpa [align_alloc, hraw] using hq
    simp [align_alloc, align_free, hraw, hq2, Proc.store, Proc.emit, Proc.load, List.lookup]
  · intro p0
    simp [align_free]

/-- Witness for C4: a 262144-byte buffer aligned to 4096. -/
theorem align_free_undoes_align_alloc_witness :
    (∃ total_size, (align_alloc 262144 4096 4096 140737488355344 ⟨[], [], []⟩).2.trace
      = [] ++ [Event.malloc total_size 140737488355344,
          Event.store (usub (align_alloc 262144 4096 4096 140737488355344 ⟨[], [], []⟩).1
            PTR_SIZE) 140737488355344]) ∧
    (align_free (align_alloc 262144 4096 4096 140737488355344 ⟨[], [], []⟩).1
        (align_alloc 262144 4096 4096 140737488355344 ⟨[], [], []⟩).2).trace
      = (align_alloc 262144 4096 4096 140737488355344 ⟨[], [], []⟩).2.trace ++
        [Event.align_free (align_alloc 262144 4096 4096 140737488355344 ⟨[], [], []⟩).1,
         Event.load (usub (align_alloc 262144 4096 4096 140737488355344 ⟨[], [], []⟩).1 PTR_SIZE),
         Event.free (some 140737488355344)] ∧
    (∀ p0 : Proc, align_free 0 p0 = p0.emit (Event.align_free 0)) :=
  align_free_undoes_align_alloc 262144 4096 4096 140737488355344 ⟨[], [], []⟩ (by decide)

/-! ## The block-size selector -/

theorem determine_io_blocksize_mycat6_cases (sysconf_ret : Int) (fstat_ret : Option Int) :
    determine_io_blocksize_mycat6 sysconf_ret fstat_ret = OPTIMAL_BUFFER_SIZE ∨
    ∃ b, fstat_ret = some b ∧ 0 < b ∧ Int.land b (b - 1) = 0 ∧ OPTIMAL_BUFFER_SIZE < b ∧
      determine_io_blocksize_mycat6 sysconf_ret fstat_ret = b := by
  unfold determine_io_blocksize_mycat6
  cases fstat_ret with
  | none => left; simp
  | some b =>
    by_cases h1 : b ≤ 0 ∨ Int.land b (b - 1) ≠ 0
    · left; simp [h1]
    · have h1a : 0 < b := by
        by_contra hc; exact h1 (Or.inl (not_lt.mp hc))
      have h1b : Int.land b (b - 1) = 0 := by
        by_contra hc; exact h1 (Or.inr hc)
      by_cases h2 : OPTIMAL_BUFFER_SIZE < b
      · right
        refine ⟨b, rfl, h1a, h1b, h2, ?_⟩
        simp [h1a, h1b, h2, not_le.mpr h1a]
      · left
        simp [h1a, h1b, h2, not_le.mpr h1a]

theorem main_alignment_cases (sysconf_ret : Int) :
    (main_alignment sysconf_ret).1 = 4096 ∨
    ((main_alignment sysconf_ret).1 = sysconf_ret ∧ 0 < sysconf_ret ∧
      Int.land sysconf_ret (sysconf_ret - 1) = 0) := by
  unfold main_alignment
  by_cases h0 : sysconf_ret = -1
  · left; subst h0; decide
  · by_cases h1 : sysconf_ret ≤ 0 ∨ Int.land sysconf_ret (sysconf_ret - 1) ≠ 0
    · left; simp [h0, h1]
    · right
      have h1a : 0 < sysconf_ret := by
        by_contra hc; exact h1 (Or.inl (not_lt.mp hc))
      have h1b : Int.land sysconf_ret (sysconf_ret - 1) = 0 := by
        by_contra hc; exact h1 (Or.inr hc)
      simp [h0, h1a, h1b, not_le.mpr h1a]

theorem main_alignment_pow2 (sysconf_ret : Int)
    (hlong : LONG_MIN ≤ sysconf_ret ∧ sysconf_ret ≤ LONG_MAX) :
    ∃ k : Nat, k < 64 ∧ (main_alignment sysconf_ret).1 = 2 ^ k ∧
      to_size_t (main_alignment sysconf_ret).1 = 2 ^ k := by
  rcases main_alignment_cases sysconf_ret with h | ⟨h, hpos, hland⟩
  · refine ⟨12, by decide, ?_, ?_⟩
    · rw [h]; norm_num
    · rw [h]; decide
  · obtain ⟨k, hk⟩ := (int_land_pred_eq_zero_iff sysconf_ret hpos).mp hland
    have hlt : (2 : Int) ^ k < 2 ^ 64 := by
      have := hlong.2
      rw [hk] at this
      unfold LONG_MAX at this
      omega
    have hk64 : k < 64 := by
      have h2 : (2 : Nat) ^ k < 2 ^ 64 := by exact_mod_cast hlt
      exact (Nat.pow_lt_pow_iff_right (by norm_num)).mp h2
    refine ⟨k, hk64, by rw [h, hk], ?_⟩
    rw [h, hk]
    unfold to_size_t WORD
    rw [Int.emod_eq_of_lt (by positivity) (by exact_mod_cast hlt)]
    exact_mod_cast Int.toNat_natCast (2 ^ k)

theorem main_setup_eq (e : Env) :
    main_setup e =
      ((align_alloc (to_size_t (determine_io_blocksize_mycat6 e.sysconf_ret e.fstat_ret))
          (to_size_t (main_alignment e.sysconf_ret).1) e.sysconf_ret e.malloc_ret
          ⟨[], (if e.fadvise_ret ≠ 0 then [Event.stderr Diag.fadvise_warning] else []) ++
            (main_alignment e.sysconf_ret).2, []⟩).1,
       determine_io_blocksize_mycat6 e.sysconf_ret e.fstat_ret,
       (align_alloc (to_size_t (determine_io_blocksize_mycat6 e.sysconf_ret e.fstat_ret))
          (to_size_t (main_alignment e.sysconf_ret).1) e.sysconf_ret e.malloc_ret
          ⟨[], (if e.fadvise_ret ≠ 0 then [Event.stderr Diag.fadvise_warning] else []) ++
            (main_alignment e.sysconf_ret).2, []⟩).2) := by
  unfold main_setup
  by_cases h : e.fadvise_ret = 0 <;> simp [h, Proc.emit]

/-- C5: for every run whose `sysconf(_SC_PAGESIZE)` result is a `long` (`-1`, `0` and
non-powers-of-two included) and every result of `fstat` (failure, or success with any
`st_blksize`), the chunk size returned by `determine_io_blocksize_mycat6` is positive, and
the call of `align_alloc` that `main` makes is `align_alloc(buffer_size, 2 ^ k)`: the
alignment it passes is the validated page size `system_page_size`, which is a power of two
(so it is positive), also after its conversion to `size_t`, and `align_alloc` uses that
alignment unchanged. -/
theorem selector_valid (e : Env)
    (hlong : LONG_MIN ≤ e.sysconf_ret ∧ e.sysconf_ret ≤ LONG_MAX) :
    0 < determine_io_blocksize_mycat6 e.sysconf_ret e.fstat_ret ∧
    ∃ k : Nat, (main_alignment e.sysconf_ret).1 = 2 ^ k ∧
      to_size_t (main_alignment e.sysconf_ret).1 = 2 ^ k ∧
      align_alloc_alignment (2 ^ k) e.sysconf_ret = 2 ^ k ∧
      main_setup e =
        ((align_alloc (to_size_t (determine_io_blocksize_mycat6 e.sysconf_ret e.fstat_ret))
            (2 ^ k) e.sysconf_ret e.malloc_ret
            ⟨[], (if e.fadvise_ret ≠ 0 then [Event.stderr Diag.fadvise_warning] else []) ++
              (main_alignment e.sysconf_ret).2, []⟩).1,
         determine_io_blocksize_mycat6 e.sysconf_ret e.fstat_ret,
         (align_alloc (to_size_t (determine_io_blocksize_mycat6 e.sysconf_ret e.fstat_ret))
            (2 ^ k) e.sysconf_ret e.malloc_ret
            ⟨[], (if e.fadvise_ret ≠ 0 then [Event.stderr Diag.fadvise_warning] else []) ++
              (main_alignment e.sysconf_ret).2, []⟩).2) := by
  constructor
  · rcases determine_io_blocksize_mycat6_cases e.sysconf_ret e.fstat_ret
      with h | ⟨b, -, hb, -, -, h⟩
    · rw [h]; decide
    · rw [h]; exact hb
  · obtain ⟨k, hk64, hk1, hk2⟩ := main_alignment_pow2 e.sysconf_ret hlong
    refine ⟨k, hk1, hk2, align_alloc_alignment_pow2 k hk64 e.sysconf_ret, ?_⟩
    rw [← hk2]
    exact main_setup_eq e

/-- Witness for C5: `posix_fadvise` succeeds, `sysconf` fails and `fstat` fails. -/
theorem selector_valid_witness :
    0 < determine_io_blocksize_mycat6 (-1) none ∧
    ∃ k : Nat, (main_alignment (-1)).1 = 2 ^ k ∧
      to_size_t (main_alignment (-1)).1 = 2 ^ k ∧
      align_alloc_alignment (2 ^ k) (-1) = 2 ^ k ∧
      main_setup ⟨2, 3, 0, -1, none, 140737488355344, [], [], 0⟩ =
        ((align_alloc (to_size_t (determine_io_blocksize_mycat6 (-1) none))
            (2 ^ k) (-1) 140737488355344
            ⟨[], (if (0 : Int) ≠ 0 then [Event.stderr Diag.fadvise_warning] else []) ++
              (main_alignment (-1)).2, []⟩).1,
         determine_io_blocksize_mycat6 (-1) none,
         (align_alloc (to_size_t (determine_io_blocksize_mycat6 (-1) none))
            (2 ^ k) (-1) 140737488355344
            ⟨[], (if (0 : Int) ≠ 0 then [Event.stderr Diag.fadvise_warning] else []) ++
              (main_alignment (-1)).2, []⟩).2) :=
  selector_valid ⟨2, 3, 0, -1, none, 140737488355344, [], [], 0⟩ (by decide)

/-- C6: `determine_io_blocksize_mycat6` returns `st_blksize` when `fstat` succeeds and
`st_blksize` is positive, a power of two and strictly greater than 262144, and returns
exactly 262144 in every other case (`fstat` failure, `st_blksize ≤ 0`, not a power of two,
or `≤ 262144`); so the result differs from 262144 exactly in the first case. -/
theorem selector_policy (sysconf_ret : Int) (fstat_ret : Option Int) :
    (∀ b : Int, fstat_ret = some b → 0 < b → (∃ k : Nat, b = 2 ^ k) → 262144 < b →
      determine_io_blocksize_mycat6 sysconf_ret fstat_ret = b) ∧
    (¬ (∃ b : Int, fstat_ret = some b ∧ 0 < b ∧ (∃ k : Nat, b = 2 ^ k) ∧ 262144 < b) →
      determine_io_blocksize_mycat6 sysconf_ret fstat_ret = 262144) ∧
    (determine_io_blocksize_mycat6 sysconf_ret fstat_ret ≠ 262144 ↔
      ∃ b : Int, fstat_ret = some b ∧ 0 < b ∧ (∃ k : Nat, b = 2 ^ k) ∧ 262144 < b) := by
  have hopt : OPTIMAL_BUFFER_SIZE = 262144 := by decide
  have hyes : ∀ b : Int, fstat_ret = some b → 0 < b → (∃ k : Nat, b = 2 ^ k) → 262144 < b →
      determine_io_blocksize_mycat6 sysconf_ret fstat_ret = b := by
    intro b hf hb hp hgt
    have hland := (int_land_pred_eq_zero_iff b hb).mpr hp
    subst hf
    unfold determine_io_blocksize_mycat6
    simp [hb, hland, hopt, hgt, not_le.mpr hb]
  have hno : ¬ (∃ b : Int, fstat_ret = some b ∧ 0 < b ∧ (∃ k : Nat, b = 2 ^ k) ∧ 262144 < b) →
      determine_io_blocksize_mycat6 sysconf_ret fstat_ret = 262144 := by
    intro hn
    rcases determine_io_blocksize_mycat6_cases sysconf_ret fstat_ret with h | ⟨b, hf, hb, hl, hgt, -⟩
    · rw [h, hopt]
    · exact absurd ⟨b, hf, hb, (int_land_pred_eq_zero_iff b hb).mp hl, by rwa [hopt] at hgt⟩ hn
  refine ⟨hyes, hno, ?_⟩
  constructor
  · intro hne
    by_contra hn
    exact hne (hno hn)
  · rintro ⟨b, hf, hb, hp, hgt⟩
    rw [hyes b hf hb hp hgt]
    omega

/-- Witness for C6: a 512 KiB block size is taken, a 4 KiB block size is not. -/
theorem selector_policy_witness :
    determine_io_blocksize_mycat6 4096 (some 524288) = 524288 ∧
    determine_io_blocksize_mycat6 4096 (some 4096) = 262144 :=
  ⟨(selector_policy 4096 (some 524288)).1 524288 rfl (by decide) ⟨19, by norm_num⟩ (by decide),
   (selector_policy 4096 (some 4096)).2.1 (by
      rintro ⟨b, hf, -, -, hgt⟩
      cases hf
      exact absurd hgt (by decide))⟩

/-! ## The copy loop: shape of the trace -/

theorem align_free_spec (ptr : Nat) (p : Proc) :
    align_free ptr p = ⟨p.cells, p.trace ++ align_free_events ptr p.cells, p.out⟩ := by
  unfold align_free align_free_events
  by_cases h : ptr = 0 <;> simp [h, Proc.emit, Proc.load]

theorem write_loop_spec (buffer : Nat) (data : List Byte) (close_ret : Int) :
    ∀ (ws : List WriteRes) (total : Nat) (p : Proc),
      (∃ ws1 p1 evs, write_loop buffer data close_ret total ws p = Flow.cont ws1 p1 ∧
        p1.cells = p.cells ∧ p1.trace = p.trace ++ evs ∧
        ∀ ev ∈ evs, Event.benign ev = true ∧ Event.is_rw ev = true) ∨
      (∃ p1 evs off cnt errno, write_loop buffer data close_ret total ws p
          = Flow.exit EXIT_FAILURE p1 ∧ errno ≠ EINTR ∧
        p1.cells = p.cells ∧
        p1.trace = p.trace ++ evs ++ Event.write off cnt (-1) errno ::
          write_exit_events buffer close_ret p.cells ∧
        ∀ ev ∈ evs, Event.benign ev = true ∧ Event.is_rw ev = true) := by
  intro ws
  induction ws with
  | nil =>
    intro total p
    left
    by_cases h : total < data.length
    · refine ⟨[], (p.emit (Event.write total (data.length - total)
          ((data.length - total : Nat) : Int) 0)).put
          ((data.drop total).take (data.length - total)),
        [Event.write total (data.length - total)
        ((data.length - total : Nat) : Int) 0], ?_, ?_, ?_, ?_⟩
      · simp only [write_loop, h, if_true]
      · simp [Proc.emit, Proc.put]
      · simp [Proc.emit, Proc.put]
      · intro ev hev
        simp only [List.mem_singleton] at hev
        subst hev
        simp only [Event.benign, Event.is_rw, and_true, Bool.or_eq_true, decide_eq_true_eq]
        left; omega
    · exact ⟨[], p, [], by simp only [write_loop, h, if_false], rfl, by simp, by simp⟩
  | cons r ws ih =>
    intro total p
    by_cases h : total < data.length
    · cases r with
      | ok k =>
        rcases ih (total + (sys_write (WriteRes.ok k) (data.length - total)).toNat)
          ((p.emit (Event.write total (data.length - total)
            (sys_write (WriteRes.ok k) (data.length - total)) 0)).put
            ((data.drop total).take (sys_write (WriteRes.ok k) (data.length - total)).toNat))
          with ⟨ws1, p1, evs, h1, h2, h3, h4⟩ | ⟨p1, evs, off, cnt, errno, h1, h2, h3, h4, h5⟩
        · left
          refine ⟨ws1, p1, Event.write total (data.length - total)
            (sys_write (WriteRes.ok k) (data.length - total)) 0 :: evs, ?_, ?_, ?_, ?_⟩
          · simp only [write_loop, h, if_true]; exact h1
          · rw [h2]; simp [Proc.emit, Proc.put]
          · rw [h3]; simp [Proc.emit, Proc.put]
          · intro ev hev
            rcases List.mem_cons.mp hev with rfl | hev
            · simp only [Event.benign, Event.is_rw, and_true, Bool.or_eq_true,
                decide_eq_true_eq, sys_write]
              left; omega
            · exact h4 ev hev
        · right
          refine ⟨p1, Event.write total (data.length - total)
            (sys_write (WriteRes.ok k) (data.length - total)) 0 :: evs, off, cnt, errno,
            ?_, h2, ?_, ?_, ?_⟩
          · simp only [write_loop, h, if_true]; exact h1
          · rw [h3]; simp [Proc.emit, Proc.put]
          · rw [h4]; simp [Proc.emit, Proc.put]
          · intro ev hev
            rcases List.mem_cons.mp hev with rfl | hev
            · simp only [Event.benign, Event.is_rw, and_true, Bool.or_eq_true,
                decide_eq_true_eq, sys_write]
              left; omega
            · exact h5 ev hev
      | fail en =>
        by_cases he : en = EINTR
        · rcases ih total (p.emit (Event.write total (data.length - total)
            (sys_write (WriteRes.fail en) (data.length - total)) en))
            with ⟨ws1, p1, evs, h1, h2, h3, h4⟩ | ⟨p1, evs, off, cnt, errno, h1, h2, h3, h4, h5⟩
          · left
            refine ⟨ws1, p1, Event.write total (data.length - total)
              (sys_write (WriteRes.fail en) (data.length - total)) en :: evs, ?_, ?_, ?_, ?_⟩
            · simp only [write_loop, h, if_true, he]; rw [he] at h1; exact h1
            · rw [h2]; simp [Proc.emit]
            · rw [h3]; simp [Proc.emit]
            · intro ev hev
              rcases List.mem_cons.mp hev with rfl | hev
              · simp [Event.benign, Event.is_rw, he]
              · exact h4 ev hev
          · right
            refine ⟨p1, Event.write total (data.length - total)
              (sys_write (WriteRes.fail en) (data.length - total)) en :: evs, off, cnt, errno,
              ?_, h2, ?_, ?_, ?_⟩
            · simp only [write_loop, h, if_true, he]; rw [he] at h1; exact h1
            · rw [h3]; simp [Proc.emit]
            · rw [h4]; simp [Proc.emit]
            · intro ev hev
              rcases List.mem_cons.mp hev with rfl | hev
              · simp [Event.benign, Event.is_rw, he]
              · exact h5 ev hev
        · right
          refine ⟨(align_free buffer ((p.emit (Event.write total (data.length - total)
            (sys_write (WriteRes.fail en) (data.length - total)) en)).emit
            (Event.stderr Diag.write_failed))).emit (Event.close close_ret),
            [], total, data.length - total, en, ?_, he, ?_, ?_, by simp⟩
          · simp only [write_loop, h, if_true, he, if_false]
          · simp [align_free_spec, Proc.emit]
          · simp [align_free_spec, Proc.emit, write_exit_events, sys_write]
    · left
      exact ⟨r :: ws, p, [], by simp only [write_loop, h, if_false], rfl, by simp, by simp⟩

theorem read_loop_spec (buffer : Nat) (buffer_size : Int) (close_ret : Int) :
    ∀ (rs : List ReadRes) (ws : List WriteRes) (p : Proc),
      (∃ p1 evs, read_loop buffer buffer_size close_ret rs ws p = Flow.cont 0 p1 ∧
        p1.cells = p.cells ∧ p1.trace = p.trace ++ evs ∧
        ∀ ev ∈ evs, Event.benign ev = true ∧ Event.is_rw ev = true) ∨
      (∃ p1 evs cnt, read_loop buffer buffer_size close_ret rs ws p = Flow.cont (-1) p1 ∧
        p1.cells = p.cells ∧ p1.trace = p.trace ++ evs ++ [Event.read cnt (-1)] ∧
        ∀ ev ∈ evs, Event.benign ev = true ∧ Event.is_rw ev = true) ∨
      (∃ p1 evs off cnt errno, read_loop buffer buffer_size close_ret rs ws p
          = Flow.exit EXIT_FAILURE p1 ∧ errno ≠ EINTR ∧
        p1.cells = p.cells ∧
        p1.trace = p.trace ++ evs ++ Event.write off cnt (-1) errno ::
          write_exit_events buffer close_ret p.cells ∧
        ∀ ev ∈ evs, Event.benign ev = true ∧ Event.is_rw ev = true) := by
  intro rs
  induction rs with
  | nil =>
    intro ws p
    left
    refine ⟨p.emit (Event.read (to_size_t buffer_size) 0), [Event.read (to_size_t buffer_size) 0],
      by simp only [read_loop], rfl, rfl, ?_⟩
    intro ev hev
    simp only [List.mem_singleton] at hev
    subst hev
    simp [Event.benign, Event.is_rw]
  | cons r rs ih =>
    intro ws p
    cases r with
    | fail en =>
      right; left
      exact ⟨p.emit (Event.read (to_size_t buffer_size) (-1)), [], to_size_t buffer_size,
        by simp only [read_loop], rfl, by simp [Proc.emit], by simp⟩
    | data c =>
      have hbenign : Event.benign (Event.read (to_size_t buffer_size)
            ((c.take (to_size_t buffer_size)).length : Int)) = true ∧
          Event.is_rw (Event.read (to_size_t buffer_size)
            ((c.take (to_size_t buffer_size)).length : Int)) = true := by
        simp only [Event.benign, Event.is_rw, and_true, decide_eq_true_eq]
        omega
      by_cases hpos : ((c.take (to_size_t buffer_size)).length : Int) > 0
      · rcases write_loop_spec buffer (c.take (to_size_t buffer_size)) close_ret ws 0
          (p.emit (Event.read (to_size_t buffer_size)
            ((c.take (to_size_t buffer_size)).length : Int)))
          with ⟨ws1, p1, evs, h1, h2, h3, h4⟩ | ⟨p1, evs, off, cnt, errno, h1, h2, h3, h4, h5⟩
        · have hstep : read_loop buffer buffer_size close_ret (ReadRes.data c :: rs) ws p
              = read_loop buffer buffer_size close_ret rs ws1 p1 := by
            simp only [read_loop, hpos, if_true, h1]
          have hc1 : p1.cells = p.cells := by rw [h2]; rfl
          have ht1 : p1.trace = p.trace ++ Event.read (to_size_t buffer_size)
              ((c.take (to_size_t buffer_size)).length : Int) :: evs := by
            rw [h3]; simp [Proc.emit]
          have hall : ∀ ev ∈ Event.read (to_size_t buffer_size)
              ((c.take (to_size_t buffer_size)).length : Int) :: evs,
              Event.benign ev = true ∧ Event.is_rw ev = true := by
            intro ev hev
            rcases List.mem_cons.mp hev with rfl | hev
            · exact hbenign
            · exact h4 ev hev
          rcases ih ws1 p1 with ⟨p2, evs2, g1, g2, g3, g4⟩ | ⟨p2, evs2, cnt, g1, g2, g3, g4⟩ |
            ⟨p2, evs2, off, cnt, errno, g1, g2, g3, g4, g5⟩
          · left
            refine ⟨p2, (Event.read (to_size_t buffer_size)
              ((c.take (to_size_t buffer_size)).length : Int) :: evs) ++ evs2,
              by rw [hstep, g1], by rw [g2, hc1], by rw [g3, ht1]; simp, ?_⟩
            intro ev hev
            rcases List.mem_append.mp hev with hev | hev
            · exact hall ev hev
            · exact g4 ev hev
          · right; left
            refine ⟨p2, (Event.read (to_size_t buffer_size)
              ((c.take (to_size_t buffer_size)).length : Int) :: evs) ++ evs2, cnt,
              by rw [hstep, g1], by rw [g2, hc1], by rw [g3, ht1]; simp, ?_⟩
            intro ev hev
            rcases List.mem_append.mp hev with hev | hev
            · exact hall ev hev
            · exact g4 ev hev
          · right; right
            refine ⟨p2, (Event.read (to_size_t buffer_size)
              ((c.take (to_size_t buffer_size)).length : Int) :: evs) ++ evs2, off, cnt, errno,
              by rw [hstep, g1], g2, by rw [g3, hc1], by rw [g4, ht1, hc1]; simp, ?_⟩
            intro ev hev
            rcases List.mem_append.mp hev with hev | hev
            · exact hall ev hev
            · exact g5 ev hev
        · right; right
          refine ⟨p1, [Event.read (to_size_t buffer_size)
              ((c.take (to_size_t buffer_size)).length : Int)] ++ evs, off, cnt, errno,
            by simp only [read_loop, hpos, if_true, h1], h2, by rw [h3]; rfl,
            by rw [h4]; simp [Proc.emit], ?_⟩
          intro ev hev
          rcases List.mem_append.mp hev with hev | hev
          · simp only [List.mem_singleton] at hev
            subst hev
            exact hbenign
          · exact h5 ev hev
      · left
        have hz : ((c.take (to_size_t buffer_size)).length : Int) = 0 := by omega
        refine ⟨p.emit (Event.read (to_size_t buffer_size)
            ((c.take (to_size_t buffer_size)).length : Int)),
          [Event.read (to_size_t buffer_size) ((c.take (to_size_t buffer_size)).length : Int)],
          ?_, rfl, rfl, ?_⟩
        · simp only [read_loop, hpos, if_false]
          rw [hz]
        · intro ev hev
          simp only [List.mem_singleton] at hev
          subst hev
          exact hbenign

theorem main_setup_trace (e : Env) :
    ∀ ev ∈ (main_setup e).2.2.trace, Event.is_rw ev = false ∧ Event.is_align_free ev = false := by
  have hall : (main_setup e).2.2.trace.all
      (fun ev => !Event.is_rw ev && !Event.is_align_free ev) = true := by
    unfold main_setup align_alloc main_alignment
    simp only [Proc.emit, Proc.store]
    split_ifs <;> simp [Event.is_rw, Event.is_align_free]
  intro ev hev
  have := List.all_eq_true.mp hall ev hev
  simpa using this

theorem align_free_events_props (ptr : Nat) (cells : List (Nat × Nat)) :
    (∀ ev ∈ align_free_events ptr cells, Event.is_rw ev = false) ∧
    (align_free_events ptr cells).filter Event.is_align_free = [Event.align_free ptr] := by
  unfold align_free_events
  by_cases h : ptr = 0 <;> simp [h, Event.is_rw, Event.is_align_free, List.filter]

theorem write_exit_events_props (buffer : Nat) (close_ret : Int) (cells : List (Nat × Nat)) :
    (∀ ev ∈ write_exit_events buffer close_ret cells, Event.is_rw ev = false) ∧
    (write_exit_events buffer close_ret cells).filter Event.is_align_free
      = [Event.align_free buffer] := by
  obtain ⟨h1, h2⟩ := align_free_events_props buffer cells
  unfold write_exit_events
  constructor
  · intro ev hev
    simp only [List.mem_cons, List.mem_append, List.mem_singleton, List.not_mem_nil,
      or_false] at hev
    rcases hev with rfl | hev | rfl
    · rfl
    · exact h1 ev hev
    · rfl
  · simp [List.filter_cons, List.filter_append, h2, Event.is_align_free]

theorem finish_events_props (buffer : Nat) (bytes_read close_ret : Int)
    (cells : List (Nat × Nat)) :
    (∀ ev ∈ finish_events buffer bytes_read close_ret cells, Event.is_rw ev = false) ∧
    (finish_events buffer bytes_read close_ret cells).filter Event.is_align_free
      = [Event.align_free buffer] := by
  obtain ⟨h1, h2⟩ := align_free_events_props buffer cells
  unfold finish_events
  constructor
  · intro ev hev
    simp only [List.mem_append, List.mem_singleton] at hev
    rcases hev with ((hev | hev) | rfl) | hev
    · split_ifs at hev
      · simp only [List.mem_singleton] at hev; subst hev; rfl
      · simp at hev
    · exact h1 ev hev
    · rfl
    · split_ifs at hev
      · simp only [List.mem_singleton] at hev; subst hev; rfl
      · simp at hev
  · simp only [List.filter_append, h2]
    split_ifs <;> simp [List.filter, Event.is_align_free]

theorem main_finish_spec (buffer : Nat) (bytes_read close_ret : Int) (p : Proc) :
    main_finish buffer bytes_read close_ret p
      = (if bytes_read = -1 ∨ close_ret = -1 then EXIT_FAILURE else EXIT_SUCCESS,
          ⟨p.cells, p.trace ++ finish_events buffer bytes_read close_ret p.cells, p.out⟩) := by
  unfold main_finish finish_events
  simp only [align_free_spec, Proc.emit]
  by_cases h1 : bytes_read = -1 <;> by_cases h2 : close_ret = -1 <;> simp [h1, h2]

theorem main_eq (e : Env) (hargc : e.argc = 2) (hopen : e.open_ret ≠ -1)
    (hbuf : (main_setup e).1 ≠ 0) :
    main e = match read_loop (main_setup e).1 (main_setup e).2.1 e.close_ret e.reads e.writes
        (main_setup e).2.2 with
      | Flow.exit status p => (status, p)
      | Flow.cont bytes_read p => main_finish (main_setup e).1 bytes_read e.close_ret p := by
  unfold main
  simp only [hargc, hopen, hbuf, ne_eq, not_true_eq_false, if_false]

/-- Shape of the trace of every run that reaches the copy loop: set-up events, then
benign reads and writes, then at most one failing call, then the closing events. -/
theorem main_shape (e : Env) (hargc : e.argc = 2) (hopen : e.open_ret ≠ -1)
    (hbuf : (main_setup e).1 ≠ 0) :
    ∃ pre evs mid fin, (main e).2.trace = pre ++ evs ++ mid ++ fin ∧
      (∀ ev ∈ pre, Event.is_rw ev = false ∧ Event.is_align_free ev = false) ∧
      (∀ ev ∈ evs, Event.benign ev = true ∧ Event.is_rw ev = true) ∧
      (∀ ev ∈ fin, Event.is_rw ev = false) ∧
      fin.filter Event.is_align_free = [Event.align_free (main_setup e).1] ∧
      ((mid = [] ∧ (main e).1 = if e.close_ret = -1 then EXIT_FAILURE else EXIT_SUCCESS) ∨
       (∃ cnt, mid = [Event.read cnt (-1)] ∧ (main e).1 = EXIT_FAILURE) ∨
       (∃ off cnt errno, errno ≠ EINTR ∧ mid = [Event.write off cnt (-1) errno] ∧
          (main e).1 = EXIT_FAILURE)) := by
  have hm := main_eq e hargc hopen hbuf
  rcases read_loop_spec (main_setup e).1 (main_setup e).2.1 e.close_ret e.reads e.writes
      (main_setup e).2.2 with ⟨p1, evs, g1, g2, g3, g4⟩ | ⟨p1, evs, cnt, g1, g2, g3, g4⟩ |
      ⟨p1, evs, off, cnt, errno, g1, g2, g3, g4, g5⟩
  · rw [g1] at hm
    simp only [main_finish_spec] at hm
    obtain ⟨f1, f2⟩ := finish_events_props (main_setup e).1 0 e.close_ret p1.cells
    refine ⟨(main_setup e).2.2.trace, evs, [],
      finish_events (main_setup e).1 0 e.close_ret p1.cells, ?_, main_setup_trace e, g4, f1, f2,
      Or.inl ⟨rfl, ?_⟩⟩
    · rw [hm, g3]; simp
    · rw [hm]; simp
  · rw [g1] at hm
    simp only [main_finish_spec] at hm
    obtain ⟨f1, f2⟩ := finish_events_props (main_setup e).1 (-1) e.close_ret p1.cells
    refine ⟨(main_setup e).2.2.trace, evs, [Event.read cnt (-1)],
      finish_events (main_setup e).1 (-1) e.close_ret p1.cells, ?_, main_setup_trace e, g4,
      f1, f2, Or.inr (Or.inl ⟨cnt, rfl, ?_⟩)⟩
    · rw [hm, g3]
    · rw [hm]; simp
  · rw [g1] at hm
    obtain ⟨f1, f2⟩ := write_exit_events_props (main_setup e).1 e.close_ret
      (main_setup e).2.2.cells
    refine ⟨(main_setup e).2.2.trace, evs, [Event.write off cnt (-1) errno],
      write_exit_events (main_setup e).1 e.close_ret (main_setup e).2.2.cells, ?_,
      main_setup_trace e, g5, f1, f2, Or.inr (Or.inr ⟨off, cnt, errno, g2, rfl, ?_⟩)⟩
    · rw [hm, g4]; simp
    · rw [hm]

theorem benign_props (ev : Event) (h : Event.benign ev = true) :
    Event.fatal_write ev = false ∧ Event.failed_read ev = false ∧
      Event.is_align_free ev = false := by
  cases ev <;> simp [Event.benign, Event.fatal_write, Event.failed_read, Event.is_align_free] at h ⊢
  · exact h
  · rcases h with h | h
    · intro h1; exact absurd h1 h
    · intro _; exact h

theorem not_rw_props (ev : Event) (h : Event.is_rw ev = false) :
    Event.fatal_write ev = false ∧ Event.failed_read ev = false := by
  cases ev <;> simp [Event.is_rw, Event.fatal_write, Event.failed_read] at h ⊢

theorem fatal_write_is_rw (ev : Event) (h : Event.fatal_write ev = true) :
    Event.is_rw ev = true := by
  cases ev <;> simp [Event.is_rw, Event.fatal_write] at h ⊢

theorem split_unique (P : Event → Bool) :
    ∀ (L R a b : List Event) (x w : Event), L ++ x :: R = a ++ w :: b →
      (∀ z ∈ L, P z = false) → (∀ z ∈ R, P z = false) → P w = true → b = R := by
  intro L
  induction L with
  | nil =>
    intro R a b x w heq _ hR hw
    cases a with
    | nil =>
      simp only [List.nil_append, List.cons.injEq] at heq
      exact heq.2.symm
    | cons y a =>
      simp only [List.nil_append, List.cons_append, List.cons.injEq] at heq
      have hmem : w ∈ R := by rw [heq.2]; simp
      rw [hR w hmem] at hw
      exact absurd hw (by simp)
  | cons l L ih =>
    intro R a b x w heq hL hR hw
    cases a with
    | nil =>
      simp only [List.nil_append, List.cons_append, List.cons.injEq] at heq
      have := hL l (by simp)
      rw [heq.1, hw] at this
      exact absurd this (by simp)
    | cons y a =>
      simp only [List.cons_append, List.cons.injEq] at heq
      exact ih R a b x w heq.2 (fun z hz => hL z (List.mem_cons_of_mem _ hz)) hR hw

/-! ## The copy loop: failures, release of the buffer, exit status -/

/-- C8: whenever a `write` returns `-1` with an `errno` other than `EINTR`, the run ends
with a non-zero exit status, and no `read` and no `write` is issued after that call,
whatever remains in the input. -/
theorem fatal_write_stops (e : Env) (a b : List Event) (w : Event)
    (hsplit : (main e).2.trace = a ++ w :: b) (hw : Event.fatal_write w = true) :
    (main e).1 = EXIT_FAILURE ∧ (main e).1 ≠ 0 ∧ ∀ ev ∈ b, Event.is_rw ev = false := by
  have hmem : w ∈ (main e).2.trace := by rw [hsplit]; simp
  have hrw := fatal_write_is_rw w hw
  by_cases hargc : e.argc = 2
  swap
  · exfalso
    have : (main e).2.trace = [Event.stderr Diag.usage] := by
      unfold main; simp [hargc, Proc.emit]
    rw [this, List.mem_singleton] at hmem
    subst hmem
    simp [Event.is_rw] at hrw
  by_cases hopen : e.open_ret = -1
  · exfalso
    have : (main e).2.trace = [Event.stderr Diag.open_failed] := by
      unfold main; simp [hargc, hopen, Proc.emit]
    rw [this, List.mem_singleton] at hmem
    subst hmem
    simp [Event.is_rw] at hrw
  by_cases hbuf : (main_setup e).1 = 0
  · exfalso
    have : (main e).2.trace = (main_setup e).2.2.trace ++ [Event.close e.close_ret] := by
      unfold main; simp [hargc, hopen, hbuf, Proc.emit]
    rw [this, List.mem_append, List.mem_singleton] at hmem
    rcases hmem with hmem | hmem
    · rw [(main_setup_trace e w hmem).1] at hrw
      exact absurd hrw (by simp)
    · subst hmem
      simp [Event.is_rw] at hrw
  obtain ⟨pre, evs, mid, fin, ht, hpre, hevs, hfin, -, hmid⟩ := main_shape e hargc hopen hbuf
  have hpre_evs : ∀ z ∈ pre ++ evs, Event.fatal_write z = false := by
    intro z hz
    rcases List.mem_append.mp hz with hz | hz
    · exact (not_rw_props z (hpre z hz).1).1
    · exact (benign_props z (hevs z hz).1).1
  have hfin2 : ∀ z ∈ fin, Event.fatal_write z = false :=
    fun z hz => (not_rw_props z (hfin z hz)).1
  rcases hmid with ⟨hm, -⟩ | ⟨cnt, hm, -⟩ | ⟨off, cnt, errno, -, hm, hst⟩
  · exfalso
    rw [ht, hm] at hmem
    simp only [List.append_nil, List.mem_append] at hmem
    rcases hmem with hmem | hmem
    · rw [hpre_evs w (List.mem_append.mpr hmem)] at hw; exact absurd hw (by simp)
    · rw [hfin2 w hmem] at hw; exact absurd hw (by simp)
  · exfalso
    rw [ht, hm] at hmem
    simp only [List.mem_append, List.mem_singleton] at hmem
    rcases hmem with (hmem | hmem) | hmem
    · rw [hpre_evs w (List.mem_append.mpr hmem)] at hw; exact absurd hw (by simp)
    · subst hmem; simp [Event.fatal_write] at hw
    · rw [hfin2 w hmem] at hw; exact absurd hw (by simp)
  · refine ⟨hst, by rw [hst]; decide, ?_⟩
    have heq : (pre ++ evs) ++ Event.write off cnt (-1) errno :: fin = a ++ w :: b := by
      rw [← hsplit, ht, hm]; simp
    have hb := split_unique Event.fatal_write (pre ++ evs) fin a b _ w heq hpre_evs hfin2 hw
    rw [hb]
    exact hfin

/-- Witness for C8: the second `write` fails with `errno = 5` while input remains unread. -/
theorem fatal_write_stops_witness :
    (main ⟨2, 3, 0, 4096, some 4096, 140737488355344,
        [ReadRes.data [65, 0, 66], ReadRes.data [67]],
        [WriteRes.ok 1, WriteRes.fail 5, WriteRes.ok 5], 0⟩).1 = EXIT_FAILURE ∧
    (main ⟨2, 3, 0, 4096, some 4096, 140737488355344,
        [ReadRes.data [65, 0, 66], ReadRes.data [67]],
        [WriteRes.ok 1, WriteRes.fail 5, WriteRes.ok 5], 0⟩).1 ≠ 0 ∧
    ∀ ev ∈ [Event.stderr Diag.write_failed, Event.align_free 140737488359424,
        Event.load 140737488359416, Event.free (some 140737488355344), Event.close 0],
      Event.is_rw ev = false :=
  fatal_write_stops ⟨2, 3, 0, 4096, some 4096, 140737488355344,
      [ReadRes.data [65, 0, 66], ReadRes.data [67]],
      [WriteRes.ok 1, WriteRes.fail 5, WriteRes.ok 5], 0⟩
    [Event.malloc 266247 140737488355344, Event.store 140737488359416 140737488355344,
      Event.read 262144 3, Event.write 0 3 1 0]
    [Event.stderr Diag.write_failed, Event.align_free 140737488359424,
      Event.load 140737488359416, Event.free (some 140737488355344), Event.close 0]
    (Event.write 1 2 (-1) 5) (by decide) (by decide)

theorem filter_eq_nil_of_all_false (P : Event → Bool) (l : List Event)
    (h : ∀ z ∈ l, P z = false) : l.filter P = [] := by
  rw [List.filter_eq_nil_iff]
  intro z hz
  rw [h z hz]
  simp

/-- C9: on every run of `main` in which `align_alloc` returns a non-null buffer, the trace
contains exactly one entry into `align_free`, and it is `align_free(buffer)`; this holds on
every path: end of input, read error, fatal write error, and `close` failure. -/
theorem buffer_released_once (e : Env) (hargc : e.argc = 2) (hopen : e.open_ret ≠ -1)
    (hbuf : (main_setup e).1 ≠ 0) :
    (main e).2.trace.filter Event.is_align_free = [Event.align_free (main_setup e).1] := by
  obtain ⟨pre, evs, mid, fin, ht, hpre, hevs, -, hfin, hmid⟩ := main_shape e hargc hopen hbuf
  have h1 : pre.filter Event.is_align_free = [] :=
    filter_eq_nil_of_all_false _ _ (fun z hz => (hpre z hz).2)
  have h2 : evs.filter Event.is_align_free = [] :=
    filter_eq_nil_of_all_false _ _ (fun z hz => (benign_props z (hevs z hz).1).2.2)
  have h3 : mid.filter Event.is_align_free = [] := by
    rcases hmid with ⟨hm, -⟩ | ⟨cnt, hm, -⟩ | ⟨off, cnt, errno, -, hm, -⟩ <;>
      rw [hm] <;> simp [List.filter, Event.is_align_free]
  rw [ht, List.filter_append, List.filter_append, List.filter_append, h1, h2, h3, hfin]
  simp

/-- Witness for C9: a run that ends with a read error and a `close` failure. -/
theorem buffer_released_once_witness :
    (main ⟨2, 3, 0, 4096, some 4096, 140737488355344,
        [ReadRes.data [65, 0, 66], ReadRes.fail 5], [WriteRes.ok 1], -1⟩).2.trace.filter
        Event.is_align_free
      = [Event.align_free (main_setup ⟨2, 3, 0, 4096, some 4096, 140737488355344,
        [ReadRes.data [65, 0, 66], ReadRes.fail 5], [WriteRes.ok 1], -1⟩).1] :=
  buffer_released_once ⟨2, 3, 0, 4096, some 4096, 140737488355344,
    [ReadRes.data [65, 0, 66], ReadRes.fail 5], [WriteRes.ok 1], -1⟩
    (by decide) (by decide) (by decide)

/-- C10: for a run that gets past `open`, the exit status is 0 if and only if the
allocation succeeded, no `read` returned `-1`, no `write` failed with an `errno` other than
`EINTR`, and `close` succeeded.  In particular a `close` failure after a clean read phase
gives a non-zero status, and a failed `read` gives a non-zero status whatever `close`
returns. -/
theorem exit_status_iff (e : Env) (hargc : e.argc = 2) (hopen : e.open_ret ≠ -1) :
    ((main e).1 = EXIT_SUCCESS ↔
      (main_setup e).1 ≠ 0 ∧ (∀ ev ∈ (main e).2.trace, Event.failed_read ev = false) ∧
      (∀ ev ∈ (main e).2.trace, Event.fatal_write ev = false) ∧ e.close_ret ≠ -1) ∧
    ((main e).1 = EXIT_SUCCESS ∨ (main e).1 = EXIT_FAILURE) ∧
    (e.close_ret = -1 → (main e).1 = EXIT_FAILURE) ∧
    ((∃ ev ∈ (main e).2.trace, Event.failed_read ev = true) → (main e).1 = EXIT_FAILURE) := by
  have h01 : EXIT_FAILURE ≠ EXIT_SUCCESS := by decide
  by_cases hbuf : (main_setup e).1 = 0
  · have hm : main e = (EXIT_FAILURE, (main_setup e).2.2.emit (Event.close e.close_ret)) := by
      unfold main; simp [hargc, hopen, hbuf]
    refine ⟨?_, Or.inr (by rw [hm]), fun _ => by rw [hm], fun _ => by rw [hm]⟩
    constructor
    · intro h; rw [hm] at h; exact absurd h h01
    · intro h; exact absurd hbuf h.1
  obtain ⟨pre, evs, mid, fin, ht, hpre, hevs, hfin, -, hmid⟩ := main_shape e hargc hopen hbuf
  have hclean : ∀ z ∈ pre ++ evs ++ fin,
      Event.failed_read z = false ∧ Event.fatal_write z = false := by
    intro z hz
    simp only [List.mem_append] at hz
    rcases hz with (hz | hz) | hz
    · exact ⟨(not_rw_props z (hpre z hz).1).2, (not_rw_props z (hpre z hz).1).1⟩
    · exact ⟨(benign_props z (hevs z hz).1).2.1, (benign_props z (hevs z hz).1).1⟩
    · exact ⟨(not_rw_props z (hfin z hz)).2, (not_rw_props z (hfin z hz)).1⟩
  rcases hmid with ⟨hm, hst⟩ | ⟨cnt, hm, hst⟩ | ⟨off, cnt, errno, herr, hm, hst⟩
  · have hall : ∀ z ∈ (main e).2.trace,
        Event.failed_read z = false ∧ Event.fatal_write z = false := by
      intro z hz
      apply hclean z
      rw [ht, hm] at hz
      simpa using hz
    by_cases hc : e.close_ret = -1
    · simp only [hc, if_true] at hst
      refine ⟨?_, Or.inr hst, fun _ => hst, fun _ => hst⟩
      constructor
      · intro h; rw [hst] at h; exact absurd h h01
      · intro h; exact absurd hc h.2.2.2
    · simp only [hc, if_false] at hst
      refine ⟨?_, Or.inl hst, fun h => absurd h hc, ?_⟩
      · constructor
        · intro _
          exact ⟨hbuf, fun z hz => (hall z hz).1, fun z hz => (hall z hz).2, hc⟩
        · intro _; exact hst
      · rintro ⟨z, hz, hf⟩
        rw [(hall z hz).1] at hf
        exact absurd hf (by simp)
  · refine ⟨?_, Or.inr hst, fun _ => hst, fun _ => hst⟩
    constructor
    · intro h; rw [hst] at h; exact absurd h h01
    · intro h
      have : Event.failed_read (Event.read cnt (-1)) = false :=
        h.2.1 _ (by rw [ht, hm]; simp)
      simp [Event.failed_read] at this
  · refine ⟨?_, Or.inr hst, fun _ => hst, fun _ => hst⟩
    constructor
    · intro h; rw [hst] at h; exact absurd h h01
    · intro h
      have : Event.fatal_write (Event.write off cnt (-1) errno) = false :=
        h.2.2.1 _ (by rw [ht, hm]; simp)
      simp [Event.fatal_write, herr] at this

/-- Witness for C10: a clean run ends with status 0. -/
theorem exit_status_iff_witness :
    (main ⟨2, 3, 0, 4096, some 4096, 140737488355344,
        [ReadRes.data [65, 0, 66]], [WriteRes.ok 1, WriteRes.fail 4], 0⟩).1 = EXIT_SUCCESS :=
  (exit_status_iff ⟨2, 3, 0, 4096, some 4096, 140737488355344,
      [ReadRes.data [65, 0, 66]], [WriteRes.ok 1, WriteRes.fail 4], 0⟩
    (by decide) (by decide)).1.mpr (by decide)

/-! ## The copy loop: the bytes written -/

theorem write_exit_events_no_write (buffer : Nat) (close_ret : Int) (cells : List (Nat × Nat))
    (off cnt : Nat) (ret : Int) (en : Nat) :
    Event.write off cnt ret en ∉ write_exit_events buffer close_ret cells := by
  intro hmem
  have := (write_exit_events_props buffer close_ret cells).1 _ hmem
  simp [Event.is_rw] at this

theorem write_loop_offsets (buffer : Nat) (data : List Byte) (close_ret : Int) :
    ∀ (ws : List WriteRes) (total : Nat) (p : Proc),
      ∃ evs, (write_loop buffer data close_ret total ws p).proc.trace = p.trace ++ evs ∧
        ∀ off cnt ret en, Event.write off cnt ret en ∈ evs →
          total ≤ off ∧ off + cnt = data.length := by
  intro ws
  induction ws with
  | nil =>
    intro total p
    by_cases h : total < data.length
    · refine ⟨[Event.write total (data.length - total) ((data.length - total : Nat) : Int) 0],
        by simp only [write_loop, h, if_true]; rfl, ?_⟩
      intro off cnt ret en hmem
      simp only [List.mem_singleton, Event.write.injEq] at hmem
      omega
    · exact ⟨[], by simp only [write_loop, h, if_false]; simp [Flow.proc], by simp⟩
  | cons r ws ih =>
    intro total p
    by_cases h : total < data.length
    · cases r with
      | ok k =>
        obtain ⟨evs, h1, h2⟩ := ih (total + (sys_write (WriteRes.ok k) (data.length - total)).toNat)
          ((p.emit (Event.write total (data.length - total)
            (sys_write (WriteRes.ok k) (data.length - total)) 0)).put
            ((data.drop total).take (sys_write (WriteRes.ok k) (data.length - total)).toNat))
        refine ⟨Event.write total (data.length - total)
          (sys_write (WriteRes.ok k) (data.length - total)) 0 :: evs, ?_, ?_⟩
        · simp only [write_loop, h, if_true]
          rw [h1]; simp [Proc.emit, Proc.put]
        · intro off cnt ret en hmem
          rcases List.mem_cons.mp hmem with heq | hmem
          · simp only [Event.write.injEq] at heq
            omega
          · have := h2 off cnt ret en hmem
            omega
      | fail errno =>
        by_cases he : errno = EINTR
        · obtain ⟨evs, h1, h2⟩ := ih total (p.emit (Event.write total (data.length - total)
            (sys_write (WriteRes.fail errno) (data.length - total)) errno))
          refine ⟨Event.write total (data.length - total)
            (sys_write (WriteRes.fail errno) (data.length - total)) errno :: evs, ?_, ?_⟩
          · simp only [write_loop, h, if_true, he]
            rw [he] at h1
            rw [h1]; simp [Proc.emit]
          · intro off cnt ret en hmem
            rcases List.mem_cons.mp hmem with heq | hmem
            · simp only [Event.write.injEq] at heq
              omega
            · exact h2 off cnt ret en hmem
        · refine ⟨Event.write total (data.length - total)
            (sys_write (WriteRes.fail errno) (data.length - total)) errno ::
            write_exit_events buffer close_ret p.cells, ?_, ?_⟩
          · simp only [write_loop, h, if_true, he, if_false]
            simp [Flow.proc, align_free_spec, Proc.emit, write_exit_events]
          · intro off cnt ret en hmem
            rcases List.mem_cons.mp hmem with heq | hmem
            · simp only [Event.write.injEq] at heq
              omega
            · exact absurd hmem (write_exit_events_no_write _ _ _ _ _ _ _)
    · exact ⟨[], by simp only [write_loop, h, if_false]; simp [Flow.proc], by simp⟩

theorem write_loop_eintr_run (buffer : Nat) (data : List Byte) (close_ret : Int) (c : Nat)
    (hc : c < data.length) (ws : List WriteRes) :
    ∀ (K : Nat) (p : Proc),
      write_loop buffer data close_ret c (List.replicate K (WriteRes.fail EINTR) ++ ws) p
        = write_loop buffer data close_ret c ws
            ⟨p.cells, p.trace ++ List.replicate K (Event.write c (data.length - c) (-1) EINTR),
              p.out⟩ := by
  intro K
  induction K with
  | zero => intro p; simp
  | succ K ih =>
    intro p
    rw [List.replicate_succ, List.cons_append]
    simp only [write_loop, hc, if_true]
    rw [ih]
    simp [Proc.emit, sys_write, List.replicate_succ]

/-- C7: for every `K`, if the `write` issued at cursor `c` (offset `c`, length
`bytes_read - c`) fails with `EINTR` exactly `K` times and then succeeds, the loop issues
exactly `K + 1` writes with that same offset and length, the cursor stays at `c` during the
failed attempts and then advances by the number of bytes accepted, only bytes from offset `c`
on reach the output, and every write the loop issues from cursor `c` has an offset of at
least `c`: no byte before `c` is written again. -/
theorem eintr_retry (buffer : Nat) (data : List Byte) (close_ret : Int) (c K k : Nat)
    (rest : List WriteRes) (p : Proc) (hc : c < data.length) :
    write_loop buffer data close_ret c
        (List.replicate K (WriteRes.fail EINTR) ++ WriteRes.ok k :: rest) p
      = write_loop buffer data close_ret (c + min k (data.length - c)) rest
          ⟨p.cells,
           p.trace ++ (List.replicate K (Event.write c (data.length - c) (-1) EINTR) ++
             [Event.write c (data.length - c) ((min k (data.length - c) : Nat) : Int) 0]),
           p.out ++ (data.drop c).take (min k (data.length - c))⟩ ∧
    (∀ (ws : List WriteRes) (p0 : Proc),
      ∃ evs, (write_loop buffer data close_ret c ws p0).proc.trace = p0.trace ++ evs ∧
        ∀ off cnt ret en, Event.write off cnt ret en ∈ evs →
          c ≤ off ∧ off + cnt = data.length) := by
  refine ⟨?_, fun ws p0 => write_loop_offsets buffer data close_ret ws c p0⟩
  rw [write_loop_eintr_run buffer data close_ret c hc]
  have hn : (sys_write (WriteRes.ok k) (data.length - c)).toNat = min k (data.length - c) :=
    Int.toNat_ofNat _
  simp only [write_loop, hc, if_true, hn]
  simp [Proc.emit, Proc.put, sys_write]

/-- Witness for C7: two interruptions at cursor 1 of a three-byte chunk, then one byte
accepted. -/
theorem eintr_retry_witness :
    write_loop 4096 [65, 0, 66] 0 1
        (List.replicate 2 (WriteRes.fail EINTR) ++ WriteRes.ok 1 :: []) ⟨[], [], [65]⟩
      = write_loop 4096 [65, 0, 66] 0 (1 + min 1 ([65, 0, 66].length - 1)) []
          ⟨[],
           [] ++ (List.replicate 2 (Event.write 1 ([65, 0, 66].length - 1) (-1) EINTR) ++
             [Event.write 1 ([65, 0, 66].length - 1)
               ((min 1 ([65, 0, 66].length - 1) : Nat) : Int) 0]),
           [65] ++ (List.drop 1 [65, 0, 66]).take (min 1 ([65, 0, 66].length - 1))⟩ ∧
    (∀ (ws : List WriteRes) (p0 : Proc),
      ∃ evs, (write_loop 4096 [65, 0, 66] 0 1 ws p0).proc.trace = p0.trace ++ evs ∧
        ∀ off cnt ret en, Event.write off cnt ret en ∈ evs →
          1 ≤ off ∧ off + cnt = [65, 0, 66].length) :=
  eintr_retry 4096 [65, 0, 66] 0 1 2 1 [] ⟨[], [], [65]⟩ (by decide)

/-! ## Interrupted reads -/

/-- C12: the copy loop does not retry an interrupted `read`.  Whatever the `errno` of a
failed `read` (`EINTR` included) and whatever input remains, the loop ends at once with
`bytes_read = -1`; on the run whose first `read` is interrupted while the byte `A` is still
to come, exactly one `read` is issued, nothing is written, and the exit status is
`EXIT_FAILURE`. -/
theorem read_eintr_not_retried :
    (∀ (buffer : Nat) (buffer_size close_ret : Int) (errno : Nat) (rs : List ReadRes)
        (ws : List WriteRes) (p : Proc),
      read_loop buffer buffer_size close_ret (ReadRes.fail errno :: rs) ws p
        = Flow.cont (-1) (p.emit (Event.read (to_size_t buffer_size) (-1)))) ∧
    (main ⟨2, 3, 0, 4096, some 4096, 140737488355344,
        [ReadRes.fail EINTR, ReadRes.data [65]], [], 0⟩).1 = EXIT_FAILURE ∧
    (main ⟨2, 3, 0, 4096, some 4096, 140737488355344,
        [ReadRes.fail EINTR, ReadRes.data [65]], [], 0⟩).2.out = [] ∧
    (main ⟨2, 3, 0, 4096, some 4096, 140737488355344,
        [ReadRes.fail EINTR, ReadRes.data [65]], [], 0⟩).2.trace.filter Event.is_rw
      = [Event.read 262144 (-1)] := by
  refine ⟨?_, by decide, by decide, by decide⟩
  intro buffer buffer_size close_ret errno rs ws p
  simp only [read_loop]

/-! ## Page size and chunk size -/

/-- The selector of `mycat4.c` never returns less than the page size it uses. -/
theorem io_blocksize_floor (sysconf_ret : Int) (fstat_ret : Option Int) :
    selector_page_size sysconf_ret ≤ io_blocksize sysconf_ret fstat_ret := by
  unfold selector_page_size io_blocksize
  by_cases h : sysconf_ret = -1
  · simp [h]
  · cases fstat_ret with
    | none => simp [h]
    | some b =>
      simp only [h, if_false]
      split_ifs <;> omega

/-- Counterexample to C13 as stated: with a page size of 524288 and a failing `fstat`, the
chunk size chosen by `determine_io_blocksize_mycat6` is 262144, below the page size. -/
theorem page_size_not_floor :
    determine_io_blocksize_mycat6 524288 none = 262144 ∧
    ¬ (selector_page_size 524288 ≤ determine_io_blocksize_mycat6 524288 none) := by
  decide

/-- C13, amended: for every result of `sysconf` and of `fstat`, the chunk size chosen by
`determine_io_blocksize_mycat6` is at least 262144, whatever the page size; so it is at
least the page size (4096 when the query fails) whenever the page size is at most 262144. -/
theorem chunk_size_floor (sysconf_ret : Int) (fstat_ret : Option Int) :
    262144 ≤ determine_io_blocksize_mycat6 sysconf_ret fstat_ret ∧
    (selector_page_size sysconf_ret ≤ 262144 →
      selector_page_size sysconf_ret ≤ determine_io_blocksize_mycat6 sysconf_ret fstat_ret) := by
  have hopt : OPTIMAL_BUFFER_SIZE = 262144 := by decide
  have h1 : 262144 ≤ determine_io_blocksize_mycat6 sysconf_ret fstat_ret := by
    rcases determine_io_blocksize_mycat6_cases sysconf_ret fstat_ret with h | ⟨b, -, -, -, hgt, h⟩
    · rw [h, hopt]
    · rw [h]; rw [hopt] at hgt; exact hgt.le
  exact ⟨h1, fun hp => le_trans hp h1⟩

/-- Witness for C13, amended: a failed `sysconf` query (page size 4096) and a failing
`fstat`. -/
theorem chunk_size_floor_witness :
    262144 ≤ determine_io_blocksize_mycat6 (-1) none ∧
    selector_page_size (-1) ≤ determine_io_blocksize_mycat6 (-1) none :=
  ⟨(chunk_size_floor (-1) none).1, (chunk_size_floor (-1) none).2 (by decide)⟩

/-! ## Alignment coercion in `align_alloc` -/

theorem to_size_t_lt (x : Int) : to_size_t x < WORD := by
  unfold to_size_t WORD
  have h1 : 0 ≤ x % ((2 ^ 64 : Nat) : Int) := Int.emod_nonneg _ (by norm_num)
  have h2 : x % ((2 ^ 64 : Nat) : Int) < ((2 ^ 64 : Nat) : Int) :=
    Int.emod_lt_of_pos _ (by norm_num)
  omega

theorem to_size_t_of_nonneg (x : Int) (h0 : 0 ≤ x) (h1 : x ≤ LONG_MAX) :
    (to_size_t x : Int) = x := by
  unfold to_size_t WORD
  unfold LONG_MAX at h1
  rw [Int.emod_eq_of_lt h0 (by norm_num; omega)]
  exact Int.toNat_of_nonneg h0

theorem to_size_t_of_neg (x : Int) (h0 : x < 0) (h1 : LONG_MIN ≤ x) :
    (to_size_t x : Int) = 2 ^ 64 + x := by
  unfold to_size_t WORD
  unfold LONG_MIN at h1
  have h2 : x % ((2 ^ 64 : Nat) : Int) = 2 ^ 64 + x := by
    have := Int.emod_emod_of_dvd x (dvd_refl ((2 ^ 64 : Nat) : Int))
    rw [← Int.add_mul_emod_self_left x ((2 ^ 64 : Nat) : Int) 1]
    rw [Int.emod_eq_of_lt (by norm_num; omega) (by norm_num; omega)]
    norm_num; ring
  rw [h2]
  exact Int.toNat_of_nonneg (by omega)

theorem page_fallback_cases (n : Nat) (hn : n < WORD) :
    (n ≠ 0 ∧ (∃ k : Nat, n = 2 ^ k) ∧
      (if n ≤ 0 ∨ (n &&& usub n 1) ≠ 0 then 4096 else n) = n) ∨
    ((n = 0 ∨ ¬ ∃ k : Nat, n = 2 ^ k) ∧
      (if n ≤ 0 ∨ (n &&& usub n 1) ≠ 0 then 4096 else n) = 4096) := by
  by_cases h0 : n = 0
  · right
    exact ⟨Or.inl h0, by simp [h0]⟩
  · have hpos : 0 < n := Nat.pos_of_ne_zero h0
    rw [usub_one n hpos hn]
    by_cases h : n &&& (n - 1) = 0
    · left
      refine ⟨h0, pow2_of_land_pred n hpos h, ?_⟩
      simp [h, h0]
    · right
      refine ⟨Or.inr ?_, by simp [h]⟩
      rintro ⟨k, hk⟩
      apply h
      rw [hk]
      exact land_pred_pow2 k

theorem align_alloc_alignment_fallback (alignment : Nat) (sysconf_ret : Int)
    (ha : alignment < WORD) (h0 : alignment ≠ 0) (hnp : ¬ ∃ k : Nat, alignment = 2 ^ k) :
    align_alloc_alignment alignment sysconf_ret
      = if to_size_t sysconf_ret ≤ 0 ∨
          (to_size_t sysconf_ret &&& usub (to_size_t sysconf_ret) 1) ≠ 0
        then 4096 else to_size_t sysconf_ret := by
  have hpos : 0 < alignment := Nat.pos_of_ne_zero h0
  have hland : (alignment &&& usub alignment 1) ≠ 0 := by
    rw [usub_one alignment hpos ha]
    intro h
    exact hnp (pow2_of_land_pred alignment hpos h)
  have h1 : alignment ≠ 1 := by
    intro h
    exact hnp ⟨0, by rw [h]; rfl⟩
  unfold align_alloc_alignment
  simp only [h0, if_false, hland, h1, ne_eq, not_false_eq_true, and_self, if_true]

/-- The alignment that `align_alloc` uses, for every `size_t` argument and every `long`
result of `sysconf`: 1 for 0; the argument when it is a power of two; otherwise the page
size when it is a positive power of two, `2 ^ 63` when `sysconf` returns `LONG_MIN`, and
4096 in every other case.  It is always a power of two. -/
theorem align_alloc_alignment_table (alignment : Nat) (sysconf_ret : Int)
    (ha : alignment < WORD) (hs : LONG_MIN ≤ sysconf_ret ∧ sysconf_ret ≤ LONG_MAX) :
    (alignment = 0 → align_alloc_alignment alignment sysconf_ret = 1) ∧
    ((∃ k : Nat, alignment = 2 ^ k) →
      align_alloc_alignment alignment sysconf_ret = alignment) ∧
    (alignment ≠ 0 → (¬ ∃ k : Nat, alignment = 2 ^ k) →
      ((0 < sysconf_ret → (∃ k : Nat, sysconf_ret = 2 ^ k) →
          (align_alloc_alignment alignment sysconf_ret : Int) = sysconf_ret) ∧
       (sysconf_ret = LONG_MIN → align_alloc_alignment alignment sysconf_ret = 2 ^ 63) ∧
       (sysconf_ret ≠ LONG_MIN → ¬ (0 < sysconf_ret ∧ ∃ k : Nat, sysconf_ret = 2 ^ k) →
          align_alloc_alignment alignment sysconf_ret = 4096))) ∧
    (∃ k : Nat, align_alloc_alignment alignment sysconf_ret = 2 ^ k) := by
  have hzero : alignment = 0 → align_alloc_alignment alignment sysconf_ret = 1 := by
    intro h
    subst h
    have h1 : (1 &&& usub 1 1) = 0 := by decide
    unfold align_alloc_alignment
    simp [h1]
  have hpow : (∃ k : Nat, alignment = 2 ^ k) →
      align_alloc_alignment alignment sysconf_ret = alignment := by
    rintro ⟨k, rfl⟩
    have hk : k < 64 := by
      by_contra hc
      have : 2 ^ 64 ≤ 2 ^ k := Nat.pow_le_pow_right (by norm_num) (not_lt.mp hc)
      unfold WORD at ha
      omega
    exact align_alloc_alignment_pow2 k hk sysconf_ret
  refine ⟨hzero, hpow, ?_, ?_⟩
  · intro h0 hnp
    have hA := align_alloc_alignment_fallback alignment sysconf_ret ha h0 hnp
    have hn := to_size_t_lt sysconf_ret
    refine ⟨?_, ?_, ?_⟩
    · intro hpos hk
      have hc := to_size_t_of_nonneg sysconf_ret hpos.le hs.2
      rcases page_fallback_cases (to_size_t sysconf_ret) hn with ⟨-, -, h⟩ | ⟨hbad, -⟩
      · rw [hA, h, hc]
      · exfalso
        obtain ⟨k, hk⟩ := hk
        rcases hbad with hz | hnp2
        · rw [hz] at hc
          omega
        · apply hnp2
          refine ⟨k, ?_⟩
          have : ((to_size_t sysconf_ret : Nat) : Int) = ((2 ^ k : Nat) : Int) := by
            rw [hc, hk]; norm_cast
          exact_mod_cast this
    · intro hmin
      rw [hA, hmin]
      decide
    · intro hmin hnot
      rcases page_fallback_cases (to_size_t sysconf_ret) hn with ⟨hnz, ⟨k, hk⟩, -⟩ | ⟨-, h⟩
      · exfalso
        by_cases hneg : sysconf_ret < 0
        · have hc := to_size_t_of_neg sysconf_ret hneg hs.1
          have hlo : (2 : Int) ^ 63 < (to_size_t sysconf_ret : Int) := by
            have := hs.1
            unfold LONG_MIN at this hmin
            omega
          rw [hk] at hlo hn
          have hlo2 : 2 ^ 63 < 2 ^ k := by exact_mod_cast hlo
          have hk1 : 63 < k := (Nat.pow_lt_pow_iff_right (by norm_num)).mp hlo2
          have hk2 : k < 64 := (Nat.pow_lt_pow_iff_right (by norm_num)).mp hn
          omega
        · have hc := to_size_t_of_nonneg sysconf_ret (not_lt.mp hneg) hs.2
          apply hnot
          have hpos : 0 < sysconf_ret := by
            have : 0 < to_size_t sysconf_ret := Nat.pos_of_ne_zero hnz
            omega
          refine ⟨hpos, k, ?_⟩
          rw [← hc, hk]
          norm_cast
      · rw [hA, h]
  · by_cases h0 : alignment = 0
    · exact ⟨0, by rw [hzero h0]; rfl⟩
    · by_cases hp : ∃ k : Nat, alignment = 2 ^ k
      · obtain ⟨k, hk⟩ := hp
        exact ⟨k, by rw [hpow ⟨k, hk⟩, hk]⟩
      · rw [align_alloc_alignment_fallback alignment sysconf_ret ha h0 hp]
        rcases page_fallback_cases (to_size_t sysconf_ret) (to_size_t_lt sysconf_ret)
          with ⟨-, ⟨k, hk⟩, h⟩ | ⟨-, h⟩
        · exact ⟨k, by rw [h, hk]⟩
        · exact ⟨12, by rw [h]; norm_num⟩

/-- Outside the results that `sysconf` can return: with a non-power-of-two argument (3) and
a page size of `LONG_MIN`, the conversion to `size_t` gives `2 ^ 63`, which the unsigned test
`alignment <= 0` does not reject, so the alignment used is `2 ^ 63`; with `-1` or `0` it is
4096. -/
theorem align_alloc_alignment_long_min :
    align_alloc_alignment 3 LONG_MIN = 2 ^ 63 ∧
    align_alloc_alignment 3 LONG_MIN ≠ 4096 ∧
    ¬ (0 < LONG_MIN) ∧
    (align_alloc 1 3 LONG_MIN 140737488355344 ⟨[], [], []⟩).2.trace.head?
      = some (Event.malloc (2 ^ 63 + 8) 140737488355344) ∧
    align_alloc_alignment 3 (-1) = 4096 ∧
    align_alloc_alignment 3 0 = 4096 := by
  decide

theorem align_alloc_alignment_lt (alignment : Nat) (sysconf_ret : Int)
    (ha : alignment < WORD) : align_alloc_alignment alignment sysconf_ret < WORD := by
  have h1 : (1 : Nat) < WORD := by decide
  have h2 : (4096 : Nat) < WORD := by decide
  have h3 := to_size_t_lt sysconf_ret
  unfold align_alloc_alignment
  simp only []
  split_ifs <;> assumption

theorem align_alloc_effective (size alignment : Nat) (sysconf_ret : Int) (raw : Nat)
    (p : Proc) (k : Nat) (hk : k < 64)
    (hr : align_alloc_alignment alignment sysconf_ret = 2 ^ k) :
    align_alloc size alignment sysconf_ret raw p = align_alloc size (2 ^ k) sysconf_ret raw p := by
  unfold align_alloc
  rw [hr, align_alloc_alignment_pow2 k hk]

/-- C11: for every `size_t` alignment argument and every result of `sysconf(_SC_PAGESIZE)`
(every `long` but `LONG_MIN`, so `-1`, `0` and every positive value are covered), the
alignment that `align_alloc` uses is 1 when the argument is 0; the argument itself when it is
a power of two; otherwise the page size when that is a positive power of two; otherwise 4096.
It is always a power of two, and `align_alloc` never returns `NULL` on account of the
alignment: whenever `malloc` succeeds and the address arithmetic does not wrap, the returned
pointer is at least `raw + sizeof(void *)`, hence not null. -/
theorem alignment_coercion (alignment : Nat) (sysconf_ret : Int)
    (ha : alignment < WORD) (hs : LONG_MIN < sysconf_ret ∧ sysconf_ret ≤ LONG_MAX) :
    (alignment = 0 → align_alloc_alignment alignment sysconf_ret = 1) ∧
    ((∃ k : Nat, alignment = 2 ^ k) →
      align_alloc_alignment alignment sysconf_ret = alignment) ∧
    (alignment ≠ 0 → (¬ ∃ k : Nat, alignment = 2 ^ k) →
      0 < sysconf_ret → (∃ k : Nat, sysconf_ret = 2 ^ k) →
      (align_alloc_alignment alignment sysconf_ret : Int) = sysconf_ret) ∧
    (alignment ≠ 0 → (¬ ∃ k : Nat, alignment = 2 ^ k) →
      ¬ (0 < sysconf_ret ∧ ∃ k : Nat, sysconf_ret = 2 ^ k) →
      align_alloc_alignment alignment sysconf_ret = 4096) ∧
    (∃ k : Nat, align_alloc_alignment alignment sysconf_ret = 2 ^ k) ∧
    (∀ (size raw : Nat) (p : Proc), raw ≠ 0 →
      raw + PTR_SIZE + align_alloc_alignment alignment sysconf_ret - 1 < WORD →
      raw + PTR_SIZE ≤ (align_alloc size alignment sysconf_ret raw p).1 ∧
      (align_alloc size alignment sysconf_ret raw p).1 ≠ 0) := by
  obtain ⟨t1, t2, t3, t4⟩ := align_alloc_alignment_table alignment sysconf_ret ha ⟨hs.1.le, hs.2⟩
  refine ⟨t1, t2, ?_, ?_, t4, ?_⟩
  · intro h0 hnp hpos hk
    exact (t3 h0 hnp).1 hpos hk
  · intro h0 hnp hnot
    exact (t3 h0 hnp).2.2 (ne_of_gt hs.1) hnot
  · intro size raw p hraw hfit
    obtain ⟨k, hk⟩ := t4
    have hlt := align_alloc_alignment_lt alignment sysconf_ret ha
    rw [hk] at hlt hfit
    have hk64 : k < 64 := (Nat.pow_lt_pow_iff_right (by norm_num)).mp hlt
    obtain ⟨-, h2⟩ := two_pow_lt_word k hk64
    rw [align_alloc_effective size alignment sysconf_ret raw p k hk64 hk,
      align_alloc_ptr size k hk64 sysconf_ret raw p hraw]
    have hx : usub (uadd (uadd raw PTR_SIZE) (2 ^ k)) 1 = raw + PTR_SIZE + 2 ^ k - 1 := by
      unfold usub uadd WORD PTR_SIZE at *
      omega
    rw [hx]
    have hge : raw + PTR_SIZE ≤ (raw + PTR_SIZE + 2 ^ k - 1) / 2 ^ k * 2 ^ k := by
      have hmod := Nat.mod_lt (raw + PTR_SIZE + 2 ^ k - 1) h2
      have hdm := Nat.div_add_mod (raw + PTR_SIZE + 2 ^ k - 1) (2 ^ k)
      rw [Nat.mul_comm] at hdm
      omega
    refine ⟨hge, ?_⟩
    intro hz
    rw [hz] at hge
    unfold PTR_SIZE at hge
    omega

/-- Witness for C11: the argument 0 gives 1; the argument 3 gives 4096 when `sysconf`
fails. -/
theorem alignment_coercion_witness :
    align_alloc_alignment 0 (-1) = 1 ∧ align_alloc_alignment 3 (-1) = 4096 :=
  ⟨(alignment_coercion 0 (-1) (by decide) (by decide)).1 rfl,
   (alignment_coercion 3 (-1) (by decide) (by decide)).2.2.2.1 (by decide)
     (by
       rintro ⟨k, hk⟩
       cases k with
       | zero => exact absurd hk (by decide)
       | succ n =>
         rw [pow_succ] at hk
         omega)
     (by
       rintro ⟨hpos, -⟩
       exact absurd hpos (by decide))⟩

end Mycat6
